import Mathlib

/-!
Verification development for the fhir_resource_viewer normalization-and-indexing
pipeline (scripts/fetch_real_data.py, scripts/fetch_datatypes.py,
scripts/update_datatypes_index.py, scripts/download_specs.py).

Python dictionaries are modelled as insertion-ordered association lists:
assignment to an existing key keeps its position and replaces the value,
assignment to a fresh key appends at the end, exactly as CPython dicts behave.
Python sets that the code converts to lists are modelled as
insertion-ordered duplicate-free lists.
-/

namespace FhirViewer

mutual

/-- JSON value as produced by json.load: objects keep key insertion order.
The array and object spines are mutual inductives so that every function
over JSON values is plain mutual structural recursion. -/
inductive Json where
  | null : Json
  | bool (b : Bool) : Json
  | num (n : Int) : Json
  | str (s : String) : Json
  | arr (xs : JsonArr) : Json
  | obj (kvs : JsonObj) : Json

inductive JsonArr where
  | nil : JsonArr
  | cons (hd : Json) (tl : JsonArr) : JsonArr

inductive JsonObj where
  | nil : JsonObj
  | cons (k : String) (v : Json) (tl : JsonObj) : JsonObj

end

def JsonArr.ofList : List Json → JsonArr
  | [] => .nil
  | x :: xs => .cons x (JsonArr.ofList xs)

def JsonArr.toList : JsonArr → List Json
  | .nil => []
  | .cons x xs => x :: JsonArr.toList xs

def JsonObj.ofList : List (String × Json) → JsonObj
  | [] => .nil
  | kv :: xs => .cons kv.1 kv.2 (JsonObj.ofList xs)

def JsonObj.toList : JsonObj → List (String × Json)
  | .nil => []
  | .cons k v xs => (k, v) :: JsonObj.toList xs

/-! ## Association-list dictionaries (CPython dict semantics) -/

/-- Assignment d[k] = v: replace in place when the key exists, else append. -/
def dictInsert {α : Type} : List (String × α) → String → α → List (String × α)
  | [], k, v => [(k, v)]
  | (k', v') :: rest, k, v =>
      if k' = k then (k, v) :: rest else (k', v') :: dictInsert rest k v

/-- Read d.get(k): first binding of the key, if any. -/
def dictLookup {α : Type} : List (String × α) → String → Option α
  | [], _ => none
  | (k', v') :: rest, k => if k' = k then some v' else dictLookup rest k

/-- Membership test k in d. -/
def dictContains {α : Type} (d : List (String × α)) (k : String) : Bool :=
  (dictLookup d k).isSome

/-- Create-if-missing followed by an in-place update, the idiom
d.setdefault(k, dflt) then mutate. -/
def dictUpdate {α : Type} (d : List (String × α)) (k : String) (dflt : α) (f : α → α) :
    List (String × α) :=
  dictInsert d k (f ((dictLookup d k).getD dflt))

/-- Merge by assignment as in the Python expression of a double-splat of two
dicts: every binding of the second is assigned over the first. -/
def dictMerge {α : Type} (a b : List (String × α)) : List (String × α) :=
  b.foldl (fun acc kv => dictInsert acc kv.1 kv.2) a


/-! ## Byte-level helpers: UTF-8 and SHA-256 (hashlib.sha256) -/

/-- UTF-8 encoding of one code point. -/
def utf8Char (c : Nat) : List Nat :=
  if c < 0x80 then [c]
  else if c < 0x800 then
    [0xC0 ||| (c >>> 6), 0x80 ||| (c &&& 0x3F)]
  else if c < 0x10000 then
    [0xE0 ||| (c >>> 12), 0x80 ||| ((c >>> 6) &&& 0x3F), 0x80 ||| (c &&& 0x3F)]
  else
    [0xF0 ||| (c >>> 18), 0x80 ||| ((c >>> 12) &&& 0x3F),
     0x80 ||| ((c >>> 6) &&& 0x3F), 0x80 ||| (c &&& 0x3F)]

/-- UTF-8 bytes of a string, matching the Python str.encode method. -/
def utf8 (s : String) : List Nat :=
  s.data.flatMap (fun c => utf8Char c.toNat)

def rotr32 (n x : Nat) : Nat :=
  ((x >>> n) ||| (x <<< (32 - n))) % 4294967296

def add32 (a b : Nat) : Nat := (a + b) % 4294967296

def not32 (x : Nat) : Nat := 0xFFFFFFFF ^^^ x

/-- Round constants of SHA-256 (FIPS 180-4), written in decimal. -/
def sha256K : List Nat :=
  [1116352408, 1899447441, 3049323471, 3921009573, 961987163, 1508970993,
   2453635748, 2870763221, 3624381080, 310598401, 607225278, 1426881987,
   1925078388, 2162078206, 2614888103, 3248222580, 3835390401, 4022224774,
   264347078, 604807628, 770255983, 1249150122, 1555081692, 1996064986,
   2554220882, 2821834349, 2952996808, 3210313671, 3336571891, 3584528711,
   113926993, 338241895, 666307205, 773529912, 1294757372, 1396182291,
   1695183700, 1986661051, 2177026350, 2456956037, 2730485921, 2820302411,
   3259730800, 3345764771, 3516065817, 3600352804, 4094571909, 275423344,
   430227734, 506948616, 659060556, 883997877, 958139571, 1322822218,
   1537002063, 1747873779, 1955562222, 2024104815, 2227730452, 2361852424,
   2428436474, 2756734187, 3204031479, 3329325298]

/-- Initial hash state of SHA-256. -/
structure Sha256State where
  a : Nat
  b : Nat
  c : Nat
  d : Nat
  e : Nat
  f : Nat
  g : Nat
  h : Nat

def sha256Init : Sha256State :=
  ⟨1779033703, 3144134277, 1013904242, 2773480762,
   1359893119, 2600822924, 528734635, 1541459225⟩

/-- Message padding: a 0x80 byte, zeros to 56 mod 64, then the bit length
as eight big-endian bytes. -/
def sha256Pad (msg : List Nat) : List Nat :=
  let len := msg.length
  let zeros := (120 - ((len + 1) % 64)) % 64
  let bitLen := len * 8
  msg ++ [0x80] ++ List.replicate zeros 0 ++
    ((List.range 8).map (fun i => (bitLen >>> (8 * (7 - i))) % 256))

/-- Split a list into chunks of n elements, with an explicit fuel bound. -/
def chunksAux {α : Type} (n : Nat) : Nat → List α → List (List α)
  | 0, _ => []
  | _, [] => []
  | fuel + 1, xs => xs.take n :: chunksAux n fuel (xs.drop n)

def chunks {α : Type} (n : Nat) (xs : List α) : List (List α) :=
  chunksAux n xs.length xs

/-- Big-endian 32-bit word from four bytes. -/
def wordOfBytes : List Nat → Nat
  | [b0, b1, b2, b3] => ((b0 * 256 + b1) * 256 + b2) * 256 + b3
  | _ => 0

/-- Extend sixteen message words to the 64-word schedule. -/
def sha256Schedule (w16 : List Nat) : List Nat :=
  (List.range 48).foldl
    (fun w _ =>
      let i := w.length
      let g : Nat → Nat := fun j => w.getD (i - j) 0
      let s0 := (rotr32 7 (g 15)) ^^^ (rotr32 18 (g 15)) ^^^ ((g 15) >>> 3)
      let s1 := (rotr32 17 (g 2)) ^^^ (rotr32 19 (g 2)) ^^^ ((g 2) >>> 10)
      w ++ [add32 (add32 (g 16) s0) (add32 (g 7) s1)])
    w16

/-- One round of the SHA-256 compression function. -/
def sha256Round (st : Sha256State) (kw : Nat × Nat) : Sha256State :=
  let s1 := (rotr32 6 st.e) ^^^ (rotr32 11 st.e) ^^^ (rotr32 25 st.e)
  let ch := (st.e &&& st.f) ^^^ ((not32 st.e) &&& st.g)
  let t1 := (st.h + s1 + ch + kw.1 + kw.2) % 4294967296
  let s0 := (rotr32 2 st.a) ^^^ (rotr32 13 st.a) ^^^ (rotr32 22 st.a)
  let maj := (st.a &&& st.b) ^^^ (st.a &&& st.c) ^^^ (st.b &&& st.c)
  let t2 := (s0 + maj) % 4294967296
  ⟨(t1 + t2) % 4294967296, st.a, st.b, st.c, (st.d + t1) % 4294967296, st.e, st.f, st.g⟩

/-- Process one 64-byte block. -/
def sha256Block (h0 : Sha256State) (block : List Nat) : Sha256State :=
  let w := sha256Schedule ((chunks 4 block).map wordOfBytes)
  let st := (sha256K.zip w).foldl sha256Round h0
  ⟨add32 h0.a st.a, add32 h0.b st.b, add32 h0.c st.c, add32 h0.d st.d,
   add32 h0.e st.e, add32 h0.f st.f, add32 h0.g st.g, add32 h0.h st.h⟩

def sha256Words (msg : List Nat) : List Nat :=
  let final := (chunks 64 (sha256Pad msg)).foldl sha256Block sha256Init
  [final.a, final.b, final.c, final.d, final.e, final.f, final.g, final.h]

def hexDigit (n : Nat) : Char :=
  "0123456789abcdef".data.getD n '0'

/-- Eight lowercase hex digits of a 32-bit word. -/
def hexWord (w : Nat) : String :=
  String.mk ((List.range 8).map (fun i => hexDigit ((w >>> (4 * (7 - i))) % 16)))

/-- Lowercase hex digest of the SHA-256 hash of a byte list, matching the
Python expression hashlib.sha256(bytes).hexdigest(). -/
def sha256hex (msg : List Nat) : String :=
  String.join ((sha256Words msg).map hexWord)


/-!
## Character-level string primitives

The Python operations the scripts use (in-operator on a character, split
on a one-character separator, joins, comparisons) are modelled over the
character list of the string, matching the code-point semantics of Python
strings.
-/

/-- Membership of a character, the Python in-operator on a one-character
needle. -/
def containsChar (s : String) (c : Char) : Bool :=
  s.data.contains c

def splitCharAux (c : Char) : List Char → List (List Char)
  | [] => [[]]
  | x :: rest =>
      let r := splitCharAux c rest
      if x = c then [] :: r
      else (x :: r.headD []) :: r.tail

/-- Python str.split with a one-character separator: never empty, keeps
empty segments. -/
def splitChar (c : Char) (s : String) : List String :=
  (splitCharAux c s.data).map String.mk

/-- Python sep.join. -/
def joinSep (sep : String) : List String → String
  | [] => ""
  | [x] => x
  | x :: rest => x ++ sep ++ joinSep sep rest

/-- Python slicing s[:n]. -/
def takeChars (n : Nat) (s : String) : String :=
  String.mk (s.data.take n)

/-- Python str.startswith. -/
def strStartsWith (s p : String) : Bool :=
  p.data.isPrefixOf s.data

/-- Code-point lexicographic strict comparison, the Python meaning of
less-than on strings. -/
def strLtB : List Char → List Char → Bool
  | _, [] => false
  | [], _ :: _ => true
  | a :: as, b :: bs =>
      if a.toNat < b.toNat then true
      else if b.toNat < a.toNat then false
      else strLtB as bs

/-- Non-strict string comparison used by sorting. -/
def strLeB (a b : String) : Bool :=
  !(strLtB b.data a.data)

/-- Trailing segment of a string split on a one-character separator, the
Python idiom of split followed by the last item. -/
def lastSegChar (c : Char) (s : String) : String :=
  (splitChar c s).getLastD ""

/-! ## Structural equality and canonical form of JSON values -/

mutual

/-- Boolean structural equality on JSON values. -/
def Json.beq : Json → Json → Bool
  | .null, .null => true
  | .bool a, .bool b => a == b
  | .num a, .num b => a == b
  | .str a, .str b => a == b
  | .arr a, .arr b => JsonArr.beq a b
  | .obj a, .obj b => JsonObj.beq a b
  | _, _ => false

def JsonArr.beq : JsonArr → JsonArr → Bool
  | .nil, .nil => true
  | .cons x xs, .cons y ys => Json.beq x y && JsonArr.beq xs ys
  | _, _ => false

def JsonObj.beq : JsonObj → JsonObj → Bool
  | .nil, .nil => true
  | .cons k v xs, .cons k2 v2 ys => k == k2 && Json.beq v v2 && JsonObj.beq xs ys
  | _, _ => false

end

/-- Stable sort of object members by key, code-point order, as the Python
builtin sorted applies to dictionary keys. -/
def sortPairsJ (l : List (String × Json)) : List (String × Json) :=
  List.insertionSort (fun a b : String × Json => strLeB a.1 b.1 = true) l

/-- Sort the members of one object level by key. -/
def JsonObj.sortByKey (kvs : JsonObj) : JsonObj :=
  JsonObj.ofList (sortPairsJ (JsonObj.toList kvs))

mutual

/-- Canonical form: object members sorted by key at every level. Two JSON
values carry identical semantic content exactly when their canonical forms
coincide. -/
def Json.canon : Json → Json
  | .obj kvs => .obj (JsonObj.sortByKey (JsonObj.canon kvs))
  | .arr xs => .arr (JsonArr.canon xs)
  | j => j

def JsonArr.canon : JsonArr → JsonArr
  | .nil => .nil
  | .cons x xs => .cons (Json.canon x) (JsonArr.canon xs)

def JsonObj.canon : JsonObj → JsonObj
  | .nil => .nil
  | .cons k v xs => .cons k (Json.canon v) (JsonObj.canon xs)

end

/-- Semantic equality of JSON values: equality up to reordering of object
members at any depth. -/
def jsonSemEq (a b : Json) : Bool :=
  Json.beq (Json.canon a) (Json.canon b)

/-! ## The two serialization paths used by the scripts -/

def hexNibble (n : Nat) : Char := hexDigit (n % 16)

/-- Escape one character inside a JSON string literal, as the json module
does with ensure_ascii set to False. -/
def escChar (c : Char) : String :=
  if c = '"' then "\\\""
  else if c = '\\' then "\\\\"
  else if c = '\n' then "\\n"
  else if c = '\r' then "\\r"
  else if c = '\t' then "\\t"
  else if c.toNat = 8 then "\\b"
  else if c.toNat = 12 then "\\f"
  else if c.toNat < 32 then
    "\\u00" ++ String.mk [hexNibble (c.toNat / 16), hexNibble c.toNat]
  else String.mk [c]

def quoteStr (s : String) : String :=
  "\"" ++ String.join (s.data.map escChar) ++ "\""

def spaces (n : Nat) : String := String.mk (List.replicate n ' ')

mutual

/-- Printer of json.dump with indent set to 2 and ensure_ascii set to
False: members appear in insertion order; the Nat argument is the current
nesting level. -/
def Json.dumpIndent : Nat → Json → String
  | _, .null => "null"
  | _, .bool b => if b then "true" else "false"
  | _, .num n => toString n
  | _, .str s => quoteStr s
  | lvl, .arr xs =>
      match xs with
      | .nil => "[]"
      | _ => "[\n" ++ joinSep ",\n" (JsonArr.dumpIndentItems (lvl + 1) xs) ++
          "\n" ++ spaces (2 * lvl) ++ "]"
  | lvl, .obj kvs =>
      match kvs with
      | .nil => "\x7b\x7d"
      | _ => "\x7b\n" ++ joinSep ",\n" (JsonObj.dumpIndentItems (lvl + 1) kvs) ++
          "\n" ++ spaces (2 * lvl) ++ "\x7d"

def JsonArr.dumpIndentItems : Nat → JsonArr → List String
  | _, .nil => []
  | lvl, .cons x xs =>
      (spaces (2 * lvl) ++ Json.dumpIndent lvl x) :: JsonArr.dumpIndentItems lvl xs

def JsonObj.dumpIndentItems : Nat → JsonObj → List String
  | _, .nil => []
  | lvl, .cons k v xs =>
      (spaces (2 * lvl) ++ quoteStr k ++ ": " ++ Json.dumpIndent lvl v) ::
        JsonObj.dumpIndentItems lvl xs

end

/-- Serialization used when persisting entry files: json.dump with indent=2
and ensure_ascii=False. -/
def dumpIndent2 (j : Json) : String :=
  Json.dumpIndent 0 j

mutual

/-- Compact printer with the default separators of json.dumps, members in
the order they appear in the value. -/
def Json.dumpCompact : Json → String
  | .null => "null"
  | .bool b => if b then "true" else "false"
  | .num n => toString n
  | .str s => quoteStr s
  | .arr xs => "[" ++ joinSep ", " (JsonArr.dumpCompactItems xs) ++ "]"
  | .obj kvs => "\x7b" ++ joinSep ", " (JsonObj.dumpCompactItems kvs) ++ "\x7d"

def JsonArr.dumpCompactItems : JsonArr → List String
  | .nil => []
  | .cons x xs => Json.dumpCompact x :: JsonArr.dumpCompactItems xs

def JsonObj.dumpCompactItems : JsonObj → List String
  | .nil => []
  | .cons k v xs => (quoteStr k ++ ": " ++ Json.dumpCompact v) :: JsonObj.dumpCompactItems xs

end

/-- Serialization used by the data-type fetcher when hashing: json.dumps
with sort_keys=True. Sorting the keys at print time is realized by
printing the canonical form, whose members are key-sorted at every level,
with the compact printer. -/
def dumpsSorted (j : Json) : String :=
  Json.dumpCompact (Json.canon j)

/-!
## Model of scripts/fetch_real_data.py (class FHIRDataFetcher)

Raw schema documents are nested JSON mappings; the fields the script reads
are modelled as Option-typed record fields, where a missing dictionary key
is the value none and the get defaults of the source appear as getD
defaults here.
-/

namespace FetchRealData

/-- Raw binding mapping inside an element definition. An empty mapping is
identified with an absent one, both being falsy in the source guard. -/
structure RawBinding where
  strength : Option String
  description : Option String
  valueSet : Option String
deriving DecidableEq

/-- The profile entry of a raw type mapping may be absent, a single string
or a list of strings; the source tests truthiness and then isinstance list. -/
inductive RawProfileRef where
  | missing : RawProfileRef
  | single (s : String) : RawProfileRef
  | multiple (ss : List String) : RawProfileRef
deriving DecidableEq

structure RawType where
  code : Option String
  profile : RawProfileRef
deriving DecidableEq

structure RawConstraint where
  key : Option String
  severity : Option String
  human : Option String
  expression : Option String
  xpath : Option String
deriving DecidableEq

/-- One raw element definition, with exactly the keys the script reads. -/
structure RawElement where
  id : Option String
  path : Option String
  short : Option String
  definition : Option String
  min : Option Int
  max : Option String
  type : Option (List RawType)
  isModifier : Option Bool
  isSummary : Option Bool
  binding : Option RawBinding
  constraint : Option (List RawConstraint)
  mapping : Option (List Json)
  mustSupport : Option Bool

/-- A snapshot or differential mapping, holding an element list. -/
structure RawSnapshot where
  element : Option (List RawElement)

/-- One raw StructureDefinition document, with the keys the script reads. -/
structure RawStructureDef where
  id : Option String
  name : Option String
  title : Option String
  description : Option String
  type : Option String
  url : Option String
  version : Option String
  status : Option String
  date : Option String
  kind : Option String
  abstract : Option Bool
  baseDefinition : Option String
  derivation : Option String
  fhirVersion : Option String
  snapshot : Option RawSnapshot
  differential : Option RawSnapshot

structure BindingInfo where
  strength : Option String
  description : Option String
  valueSet : Option String
deriving DecidableEq

structure ConstraintInfo where
  key : Option String
  severity : Option String
  human : Option String
  expression : Option String
  xpath : Option String
deriving DecidableEq

/-- One normalized element record, the element_info dictionary built by
process_elements. -/
structure ElementInfo where
  id : String
  path : String
  name : String
  short : String
  description : String
  min : Int
  max : String
  cardinality : String
  type : String
  isModifier : Bool
  isSummary : Bool
  binding : Option BindingInfo
  constraints : List ConstraintInfo
  mapping : List Json
  mustSupport : Option Bool

/-- Method extract_element_types: display string of the allowed types. -/
def extract_element_types (type_list : List RawType) : String :=
  if type_list.isEmpty then "unknown"
  else
    joinSep " | " (type_list.map (fun type_def =>
      let type_code := type_def.code.getD "unknown"
      match type_def.profile with
      | .missing => type_code
      | .single p =>
          if p = "" then type_code
          else type_code ++ "(" ++ lastSegChar (Char.ofNat 47) p ++ ")"
      | .multiple ps =>
          if ps.isEmpty then type_code
          else type_code ++ "(" ++ joinSep ", " (ps.map (lastSegChar (Char.ofNat 47))) ++ ")"))

/-- Method extract_binding_info: projection of the binding mapping. -/
def extract_binding_info (binding : Option RawBinding) : Option BindingInfo :=
  match binding with
  | none => none
  | some b => some ⟨b.strength, b.description, b.valueSet⟩

/-- Method extract_constraints: projection of the constraint list. -/
def extract_constraints (constraints : List RawConstraint) : List ConstraintInfo :=
  constraints.map (fun c => ⟨c.key, c.severity, c.human, c.expression, c.xpath⟩)

def pathOf (element : RawElement) : String := element.path.getD ""

/-- Guard of the loop in process_elements: an element is kept unless its
path is missing, empty, or contains no dot. -/
def keepElement (element : RawElement) : Bool :=
  !(pathOf element == "") && containsChar (pathOf element) (Char.ofNat 46)

/-- Body of the loop in process_elements: the element_info dictionary. -/
def element_info (element : RawElement) (is_profile : Bool) : ElementInfo :=
  let path := pathOf element
  { id := element.id.getD ""
    path := path
    name := (splitChar (Char.ofNat 46) path).getLastD ""
    short := element.short.getD ""
    description := element.definition.getD (element.short.getD "")
    min := element.min.getD 0
    max := element.max.getD "1"
    cardinality := toString (element.min.getD 0) ++ ".." ++ element.max.getD "1"
    type := extract_element_types (element.type.getD [])
    isModifier := element.isModifier.getD false
    isSummary := element.isSummary.getD false
    binding := extract_binding_info element.binding
    constraints := extract_constraints (element.constraint.getD [])
    mapping := element.mapping.getD []
    mustSupport := if is_profile then some (element.mustSupport.getD false) else none }

/-- Method process_elements: the append-in-a-loop of the source written as
structural recursion. -/
def process_elements : List RawElement → Bool → List ElementInfo
  | [], _ => []
  | element :: rest, is_profile =>
      if keepElement element then
        element_info element is_profile :: process_elements rest is_profile
      else
        process_elements rest is_profile

structure ElementStats where
  elementCount : Nat
  requiredElements : Nat
  optionalElements : Nat
  summaryElements : Nat
  modifierElements : Nat
deriving DecidableEq

/-- Method calculate_element_stats. -/
def calculate_element_stats (elements : List ElementInfo) : ElementStats :=
  { elementCount := elements.length
    requiredElements := elements.countP (fun e => decide (0 < e.min))
    optionalElements := elements.countP (fun e => decide (e.min = 0))
    summaryElements := elements.countP (fun e => e.isSummary)
    modifierElements := elements.countP (fun e => e.isModifier) }

/-- One processed resource or profile dictionary. -/
structure Processed where
  id : String
  name : String
  title : String
  description : String
  type : String
  resourceType : String
  url : String
  version : String
  status : String
  date : String
  kind : String
  abstract : Bool
  baseDefinition : String
  derivation : String
  fhirVersion : String
  elements : List ElementInfo
  statistics : ElementStats
  mustSupportCount : Option Nat

/-- The element list the script processes: the value of snapshot.element,
with empty-mapping and empty-list defaults. -/
def snapshot_elements (structure_def : RawStructureDef) : List RawElement :=
  ((structure_def.snapshot.getD ⟨none⟩).element.getD [])

/-- Method process_fhir_structure_definition. The try block of the source
cannot fail in this model, so the result is the processed entry itself. -/
def process_fhir_structure_definition (structure_def : RawStructureDef) : Processed :=
  let elems := process_elements (snapshot_elements structure_def) false
  { id := structure_def.id.getD ""
    name := structure_def.name.getD ""
    title := structure_def.title.getD ""
    description := structure_def.description.getD ""
    type := "resource"
    resourceType := structure_def.type.getD ""
    url := structure_def.url.getD ""
    version := structure_def.version.getD ""
    status := structure_def.status.getD ""
    date := structure_def.date.getD ""
    kind := structure_def.kind.getD ""
    abstract := structure_def.abstract.getD false
    baseDefinition := structure_def.baseDefinition.getD ""
    derivation := structure_def.derivation.getD ""
    fhirVersion := structure_def.fhirVersion.getD ""
    elements := elems
    statistics := calculate_element_stats elems
    mustSupportCount := none }

/-- Method process_us_core_profile: as the resource case but with
is_profile set and the must-support count summed over the elements. -/
def process_us_core_profile (profile_def : RawStructureDef) : Processed :=
  let elems := process_elements (snapshot_elements profile_def) true
  { id := profile_def.id.getD ""
    name := profile_def.name.getD ""
    title := profile_def.title.getD ""
    description := profile_def.description.getD ""
    type := "profile"
    resourceType := profile_def.type.getD ""
    url := profile_def.url.getD ""
    version := profile_def.version.getD ""
    status := profile_def.status.getD ""
    date := profile_def.date.getD ""
    kind := profile_def.kind.getD ""
    abstract := profile_def.abstract.getD false
    baseDefinition := profile_def.baseDefinition.getD ""
    derivation := profile_def.derivation.getD ""
    fhirVersion := profile_def.fhirVersion.getD ""
    elements := elems
    statistics := calculate_element_stats elems
    mustSupportCount := some (elems.countP (fun e => e.mustSupport.getD false)) }

/-- Python str.capitalize: first character upper-cased, the rest lowered. -/
def pyCapitalize (s : String) : String :=
  match s.data with
  | [] => ""
  | c :: rest => String.mk (c.toUpper :: rest.map Char.toLower)

/-- Method clean_profile_name: us-core-patient becomes USCorePatient. The
source tests the first two split parts; the list pattern below matches that
guard on every input with at least two parts, and inputs where the source
would fail on a missing second part (the bare string us) fall through to
the identity branch, a corner no caller reaches. -/
def clean_profile_name (profile_name : String) : String :=
  match splitChar (Char.ofNat 45) profile_name with
  | "us" :: "core" :: name_parts =>
      "USCore" ++ String.join (name_parts.map pyCapitalize)
  | _ => profile_name

/-- Accumulation of downloaded documents into the per-family dictionary, as
the assignments in the download loops perform it: later documents with the
same name overwrite earlier ones. -/
def accumulate (docs : List (String × Processed)) : List (String × Processed) :=
  docs.foldl (fun acc kv => dictInsert acc kv.1 kv.2) []

/-- Abstract file-system view: file content in bytes, or none when the file
cannot be read. -/
def FileSystem : Type := String → Option (List Nat)

/-- Method calculate_file_hash: SHA-256 of the file bytes, truncated to 16
hex digits, and the sentinel when reading fails (the bare except branch). -/
def calculate_file_hash (fs : FileSystem) (file_path : String) : String :=
  match fs file_path with
  | some content => "sha256:" ++ takeChars 16 (sha256hex content)
  | none => "sha256:unknown"

structure ByNameRec where
  spec : String
  type : String
  baseDefinition : Option String
  file : String
  hash : String
  elementCount : Nat
  mustSupportCount : Option Nat
  lastModified : String
deriving DecidableEq

structure RIStats where
  totalResources : Nat
  fhirResources : Nat
  usCoreProfiles : Nat
  totalElements : Nat
deriving DecidableEq

/-- The resource index dictionary. The bySpec and byType mappings have the
two fixed keys of the source literal, modelled as separate fields. -/
structure ResourceIndex where
  byName : List (String × ByNameRec)
  bySpecFhir : List String
  bySpecUsCore : List String
  byTypeResource : List String
  byTypeProfile : List String
  statistics : RIStats
deriving DecidableEq

/-- The byName record written for one FHIR R4 resource. -/
def fhirByNameRec (fs : FileSystem) (name : String) (data : Processed) : ByNameRec :=
  { spec := "fhir-r4"
    type := "resource"
    baseDefinition := none
    file := "fhir-r4/resources/" ++ name ++ ".json"
    hash := calculate_file_hash fs ("fhir-r4/resources/" ++ name ++ ".json")
    elementCount := data.elements.length
    mustSupportCount := none
    lastModified := data.date }

/-- The byName record written for one US Core profile. -/
def usCoreByNameRec (fs : FileSystem) (name : String) (data : Processed) : ByNameRec :=
  { spec := "us-core-stu6.1"
    type := "profile"
    baseDefinition := some (lastSegChar (Char.ofNat 47) data.baseDefinition)
    file := "us-core-stu6.1/profiles/" ++ name ++ ".json"
    hash := calculate_file_hash fs ("us-core-stu6.1/profiles/" ++ name ++ ".json")
    elementCount := data.elements.length
    mustSupportCount := some (data.mustSupportCount.getD 0)
    lastModified := data.date }

/-- Body of the FHIR resource loop of generate_resource_index. -/
def fhir_index_step (fs : FileSystem) (idx : ResourceIndex)
    (kv : String × Processed) : ResourceIndex :=
  { idx with
    byName := dictInsert idx.byName kv.1 (fhirByNameRec fs kv.1 kv.2)
    bySpecFhir := idx.bySpecFhir ++ [kv.1]
    byTypeResource := idx.byTypeResource ++ [kv.1] }

/-- Body of the US Core profile loop of generate_resource_index. -/
def us_index_step (fs : FileSystem) (idx : ResourceIndex)
    (kv : String × Processed) : ResourceIndex :=
  { idx with
    byName := dictInsert idx.byName kv.1 (usCoreByNameRec fs kv.1 kv.2)
    bySpecUsCore := idx.bySpecUsCore ++ [kv.1]
    byTypeProfile := idx.byTypeProfile ++ [kv.1] }

/-- Method generate_resource_index: both accumulation dictionaries are
walked in iteration order, appending to the bySpec and byType lists and
assigning into byName. No sorting and no duplicate check occurs. -/
def generate_resource_index (fs : FileSystem)
    (fhir_resources us_core_profiles : List (String × Processed)) : ResourceIndex :=
  let init : ResourceIndex :=
    { byName := [], bySpecFhir := [], bySpecUsCore := []
      byTypeResource := [], byTypeProfile := []
      statistics := ⟨0, 0, 0, 0⟩ }
  let afterFhir := fhir_resources.foldl (fhir_index_step fs) init
  let afterUs := us_core_profiles.foldl (us_index_step fs) afterFhir
  { afterUs with statistics :=
      { totalResources := fhir_resources.length + us_core_profiles.length
        fhirResources := fhir_resources.length
        usCoreProfiles := us_core_profiles.length
        totalElements :=
          ((dictMerge fhir_resources us_core_profiles).map
            (fun kv => kv.2.elements.length)).sum } }

structure NameEntry where
  resources : List String
  frequency : Nat
  types : List String
  commonPaths : List String
deriving DecidableEq

structure PathEntry where
  cardinality : String
  type : String
  mustSupport : Bool
  binding : Option BindingInfo
  isModifier : Bool
  isSummary : Bool
deriving DecidableEq

structure TypeUsage where
  frequency : Nat
  elements : List String
deriving DecidableEq

/-- The element index dictionary. The types set inside byName is modelled
as an insertion-ordered duplicate-free list, so the final set-to-list
conversion of the source is the identity here. -/
structure ElementIndex where
  byName : List (String × NameEntry)
  byPath : List (String × PathEntry)
  searchTerms : List (String × List String)
  mustSupportElements : List (String × List String)
  dataTypeUsage : List (String × TypeUsage)
  constraints : List (String × ConstraintInfo)
deriving DecidableEq

/-- Set insertion for the types set of byName. -/
def setAdd (l : List String) (x : String) : List String :=
  if l.contains x then l else l ++ [x]

/-- Body of the constraint loop at the end of the inner loop of
generate_element_index. -/
def index_constraint_step (idx : ElementIndex) (c : ConstraintInfo) : ElementIndex :=
  match c.key with
  | some k =>
      if k ≠ "" then { idx with constraints := dictInsert idx.constraints k c }
      else idx
  | none => idx

/-- Body of the inner loop of generate_element_index, for one element of
one entry. -/
def index_element (resource_name : String) (resource_data : Processed)
    (idx : ElementIndex) (element : ElementInfo) : ElementIndex :=
  let element_name := element.name
  let element_path := element.path
  let element_type := element.type
  let idx1 :=
    if element_name ≠ "" then
      { idx with byName := (dictUpdate idx.byName element_name ⟨[], 0, [], []⟩
          (fun en =>
            { en with
              resources := en.resources ++ [resource_name]
              frequency := en.frequency + 1
              types := setAdd en.types element_type
              commonPaths := en.commonPaths ++ [element_path] })) }
    else idx
  let idx2 :=
    if element_path ≠ "" then
      { idx1 with byPath := (dictInsert idx1.byPath element_path
          ⟨element.cardinality, element_type, element.mustSupport.getD false,
           element.binding, element.isModifier, element.isSummary⟩) }
    else idx1
  let idx3 :=
    if element.mustSupport.getD false && resource_data.type == "profile" then
      { idx2 with mustSupportElements :=
          (dictUpdate idx2.mustSupportElements resource_name []
            (fun l => l ++ [element_name])) }
    else idx2
  let idx4 :=
    if element_type ≠ "unknown" then
      { idx3 with dataTypeUsage := (dictUpdate idx3.dataTypeUsage element_type ⟨0, []⟩
          (fun tu => ⟨tu.frequency + 1, tu.elements ++ [element_path]⟩)) }
    else idx3
  element.constraints.foldl index_constraint_step idx4

/-- The curated search-term table of generate_search_terms. -/
def term_mappings : List (String × List String) :=
  [("patient", ["Patient"]), ("demographics", ["Patient"]),
   ("observation", ["Observation"]), ("vital", ["Observation"]),
   ("lab", ["Observation"]), ("practitioner", ["Practitioner"]),
   ("provider", ["Practitioner"]), ("doctor", ["Practitioner"]),
   ("organization", ["Organization"]), ("facility", ["Organization"]),
   ("medication", ["Medication", "MedicationRequest"]),
   ("allergy", ["AllergyIntolerance"]), ("condition", ["Condition"]),
   ("diagnosis", ["Condition"]), ("procedure", ["Procedure"]),
   ("encounter", ["Encounter"]), ("visit", ["Encounter"])]

/-- Method generate_search_terms: for every mapped resource whose USCore
variant is a catalog key, that variant is appended to the same term. -/
def generate_search_terms (all_data : List (String × Processed)) :
    List (String × List String) :=
  term_mappings.map (fun tm =>
    (tm.1, tm.2 ++
      (tm.2.filter (fun r => dictContains all_data ("USCore" ++ r))).map
        (fun r => "USCore" ++ r)))

/-- Method generate_element_index over the merged dictionary of all
resources and profiles. -/
def generate_element_index (all_data : List (String × Processed)) : ElementIndex :=
  let init : ElementIndex := ⟨[], [], [], [], [], []⟩
  let idx := all_data.foldl (fun idx kv =>
    kv.2.elements.foldl (index_element kv.1 kv.2) idx) init
  { idx with searchTerms := generate_search_terms all_data }

end FetchRealData

/-!
## Model of scripts/fetch_datatypes.py (class FHIRDataTypeFetcher)

The raw input shapes are shared with fetch_real_data, so the Raw types of
that namespace are reused.
-/

namespace FetchDatatypes

structure DTBinding where
  strength : String
  valueSet : String
deriving DecidableEq

/-- The element_data dictionary built inside process_structure_definition. -/
structure DTElement where
  path : String
  name : String
  cardinality : String
  type : String
  description : String
  binding : Option DTBinding
deriving DecidableEq

/-- The processed data-type dictionary, before _metadata is attached. -/
structure DTProcessed where
  id : String
  name : String
  title : String
  description : String
  kind : String
  abstract : Bool
  type : String
  baseDefinition : String
  elements : List DTElement
deriving DecidableEq

/-- Method extract_element_type: joined type codes, empty codes filtered
out, with the default Element when the type list is absent or empty. -/
def extract_element_type (element : FetchRealData.RawElement) : String :=
  match element.type with
  | some ts =>
      if ts.isEmpty then "Element"
      else
        joinSep " | "
          ((ts.map (fun t => t.code.getD "")).filter (fun s => s ≠ ""))
  | none => "Element"

/-- Method extract_binding: present when the binding key exists. -/
def extract_binding (element : FetchRealData.RawElement) : Option DTBinding :=
  match element.binding with
  | some b => some ⟨b.strength.getD "", b.valueSet.getD ""⟩
  | none => none

/-- Body of the element loop of process_structure_definition. Note that no
root-element skip occurs here and the max default is the star string. -/
def element_data (element : FetchRealData.RawElement) : DTElement :=
  let path := element.path.getD ""
  { path := path
    name := if path ≠ "" then (splitChar (Char.ofNat 46) path).getLastD "" else ""
    cardinality := toString (element.min.getD 0) ++ ".." ++ element.max.getD "*"
    type := extract_element_type element
    description := element.definition.getD (element.short.getD "")
    binding := extract_binding element }

/-- The element-list selection of process_structure_definition: the
differential list when present, else the snapshot list, else empty. -/
def selected_elements (structure_def : FetchRealData.RawStructureDef) :
    List FetchRealData.RawElement :=
  match structure_def.differential with
  | some d =>
      match d.element with
      | some es => es
      | none =>
          match structure_def.snapshot with
          | some s => s.element.getD []
          | none => []
  | none =>
      match structure_def.snapshot with
      | some s => s.element.getD []
      | none => []

/-- Method process_structure_definition of the data-type fetcher. -/
def process_structure_definition (structure_def : FetchRealData.RawStructureDef) :
    DTProcessed :=
  { id := structure_def.id.getD ""
    name := structure_def.name.getD ""
    title := structure_def.title.getD ""
    description := structure_def.description.getD ""
    kind := structure_def.kind.getD ""
    abstract := structure_def.abstract.getD false
    type := structure_def.type.getD ""
    baseDefinition := structure_def.baseDefinition.getD ""
    elements := (selected_elements structure_def).map element_data }

/-- The _metadata hash computed in save_data_type: SHA-256 of the
sort_keys serialization of the processed value, truncated to 16 hex
digits. The right-hand side of the assignment is evaluated before the
_metadata key is attached, so the hash covers the value without it. -/
def metadata_hash (data : Json) : String :=
  takeChars 16 (sha256hex (utf8 (dumpsSorted data)))

end FetchDatatypes

/-!
## Model of scripts/download_specs.py (class FHIRSpecDownloader), the
element-level processing only
-/

namespace DownloadSpecs

structure DSBinding where
  strength : Option String
  valueSet : Option String
deriving DecidableEq

/-- The processed element dictionary of process_element. -/
structure DSElement where
  name : String
  type : String
  cardinality : String
  description : String
  path : String
  binding : Option DSBinding
deriving DecidableEq

/-- Method get_element_type. -/
def get_element_type (element : FetchRealData.RawElement) : String :=
  match element.type.getD [] with
  | [] => "unknown"
  | ts => joinSep " | " (ts.map (fun t => t.code.getD "unknown"))

/-- Method get_element_binding. -/
def get_element_binding (element : FetchRealData.RawElement) : Option DSBinding :=
  match element.binding with
  | some b => some ⟨b.strength, b.valueSet⟩
  | none => none

/-- Method process_element: none for a missing or undotted path, else the
processed element with min defaulting to 0 and max defaulting to star,
both kept verbatim inside the cardinality display string. -/
def process_element (element : FetchRealData.RawElement) : Option DSElement :=
  let path := element.path.getD ""
  if path = "" ∨ ¬(containsChar path (Char.ofNat 46)) then none
  else
    some
      { name := (splitChar (Char.ofNat 46) path).getLastD ""
        type := get_element_type element
        cardinality := toString (element.min.getD 0) ++ ".." ++ element.max.getD "*"
        description := element.short.getD (element.definition.getD "")
        path := path
        binding := get_element_binding element }

end DownloadSpecs

/-!
## Model of scripts/update_datatypes_index.py (update_indexes)

The function operates on the JSON loaded from resources.json and
master.json. The byName values are kept as JSON values; the statistics
fields the function touches are typed.
-/

namespace UpdateDatatypesIndex

/-- The projection of one data-type file that update_indexes reads: the
file stem and the _metadata and kind fields of its JSON body. -/
structure DatatypeFile where
  name : String
  metaHash : String
  metaElementCount : Int
  kind : Option String

structure RIFileStats where
  totalResources : Int
  fhirResources : Int
  usCoreProfiles : Int
  totalElements : Int
  dataTypes : Option Int
deriving DecidableEq

/-- The loaded resources.json document. -/
structure RIFile where
  byName : List (String × Json)
  bySpec : List (String × List String)
  byType : List (String × List String)
  statistics : RIFileStats

/-- The stats mapping of the loaded master.json document. -/
structure MasterStats where
  totalResources : Int
  dataTypesCreated : Option Int
deriving DecidableEq

/-- The byName record assigned for one data type. -/
def datatype_record (f : DatatypeFile) : Json :=
  .obj (JsonObj.ofList
    [("spec", .str "fhir-r4"), ("type", .str "datatype"),
     ("file", .str ("fhir-r4/datatypes/" ++ f.name ++ ".json")),
     ("hash", .str ("sha256:" ++ f.metaHash)),
     ("elementCount", .num f.metaElementCount),
     ("kind", .str (f.kind.getD "complex-type")),
     ("lastModified", .str "manual")])

/-- Python list.sort on strings: stable ascending sort. -/
def sortStrings (l : List String) : List String :=
  List.insertionSort (fun a b : String => strLeB a b = true) l

/-- The first loop of update_indexes: assign every data type into byName. -/
def insert_datatypes (byName : List (String × Json)) (files : List DatatypeFile) :
    List (String × Json) :=
  files.foldl (fun bn f => dictInsert bn f.name (datatype_record f)) byName

/-- The guard of update_indexes that creates an empty list under the key
when it is missing. -/
def ensure_key (d : List (String × List String)) (k : String) :
    List (String × List String) :=
  if dictContains d k then d else dictInsert d k []

/-- The append loops of update_indexes: add each missing name to the list
kept under the key. -/
def append_names (d : List (String × List String)) (k : String)
    (files : List DatatypeFile) : List (String × List String) :=
  files.foldl
    (fun bs f => dictUpdate bs k []
      (fun l => if l.contains f.name then l else l ++ [f.name])) d

/-- The in-place sort of the list kept under the key. -/
def sort_key (d : List (String × List String)) (k : String) :
    List (String × List String) :=
  dictUpdate d k [] sortStrings

/-- Function update_indexes: assigns every data type into byName, appends
missing names to the fhir-r4 bySpec list and the datatype byType list,
sorts those two lists, and increments the statistics by the number of
data-type files seen in this run. -/
def update_indexes (resources_index : RIFile) (master_stats : MasterStats)
    (datatype_files : List DatatypeFile) : RIFile × MasterStats :=
  let data_types_added : Int := datatype_files.length
  let byName := insert_datatypes resources_index.byName datatype_files
  let bySpec :=
    sort_key (append_names (ensure_key resources_index.bySpec "fhir-r4")
      "fhir-r4" datatype_files) "fhir-r4"
  let byType :=
    sort_key (append_names (ensure_key resources_index.byType "datatype")
      "datatype" datatype_files) "datatype"
  let stats :=
    { resources_index.statistics with
      totalResources := resources_index.statistics.totalResources + data_types_added
      dataTypes := some data_types_added }
  let master :=
    { master_stats with
      totalResources := master_stats.totalResources + data_types_added
      dataTypesCreated := some data_types_added }
  ({ byName := byName, bySpec := bySpec, byType := byType, statistics := stats }, master)

end UpdateDatatypesIndex

/-! ## Concrete documents and file systems used by the scenario theorems -/

namespace FetchRealData

/-- Raw element with every key absent except an optional path. -/
def mkRawElement (p : Option String) : RawElement :=
  { id := none, path := p, short := none, definition := none, min := none,
    max := none, type := none, isModifier := none, isSummary := none,
    binding := none, constraint := none, mapping := none, mustSupport := none }

/-- Raw document with every key absent. -/
def mkRawStructureDef : RawStructureDef :=
  { id := none, name := none, title := none, description := none, type := none,
    url := none, version := none, status := none, date := none, kind := none,
    abstract := none, baseDefinition := none, derivation := none,
    fhirVersion := none, snapshot := none, differential := none }

/-- File system with no readable files. -/
def fsEmpty : FileSystem := fun _ => none

/-- Raw element with a dotted path and a max value that is not a
non-negative integer. -/
def bananaElem : RawElement :=
  { mkRawElement (some "Patient.x") with max := some "banana" }

/-- First element of the must-support scenario document. -/
def patientIdElem : RawElement :=
  { mkRawElement (some "Patient.id") with
    min := some 0
    max := some "1"
    mustSupport := some false }

/-- Second element of the must-support scenario document. -/
def patientNameElem : RawElement :=
  { mkRawElement (some "Patient.name") with
    min := some 1
    max := some "*"
    mustSupport := some true }

/-- The profile document of the must-support scenario. -/
def patientProfileDoc : RawStructureDef :=
  { mkRawStructureDef with
    name := some "Patient"
    snapshot := some ⟨some [patientIdElem, patientNameElem]⟩ }

/-- A profile document whose element paths start with the base resource
type Patient, while its catalog name is cleaned from us-core-patient. -/
def usCorePatientDoc : RawStructureDef :=
  { mkRawStructureDef with
    name := some "USCorePatientProfile"
    snapshot := some ⟨some [mkRawElement (some "Patient.name")]⟩ }

/-- A document carrying both a differential and a snapshot element list,
with distinguishable members. -/
def bothListsDoc : RawStructureDef :=
  { mkRawStructureDef with
    differential := some ⟨some [mkRawElement (some "Extension.url")]⟩
    snapshot := some ⟨some [mkRawElement (some "Extension.id")]⟩ }

/-- Two FHIR documents for the order-sensitivity and duplicate scenarios. -/
def procNoElems : Processed :=
  process_fhir_structure_definition { mkRawStructureDef with name := some "Patient" }

def procOneElem : Processed :=
  process_fhir_structure_definition
    { mkRawStructureDef with
      name := some "Patient"
      snapshot := some ⟨some [mkRawElement (some "Patient.id")]⟩ }

end FetchRealData

/-- Semantically equal two-member objects in the two key orders. -/
def jsonAB : Json := .obj (JsonObj.ofList [("a", .num 1), ("b", .num 2)])

def jsonBA : Json := .obj (JsonObj.ofList [("b", .num 2), ("a", .num 1)])

/-- File system holding the two persisted serializations of the same
semantic content. -/
def fsC5 : FetchRealData.FileSystem := fun p =>
  if p = "entryA.json" then some (utf8 (dumpIndent2 jsonAB))
  else if p = "entryB.json" then some (utf8 (dumpIndent2 jsonBA))
  else none

namespace UpdateDatatypesIndex

/-- Existing resource index of the merge scenario. -/
def riC7 : RIFile :=
  { byName := [("Patient", .str "existing")]
    bySpec := [("fhir-r4", ["Patient"])]
    byType := [("resource", ["Patient"])]
    statistics := ⟨5, 4, 1, 10, none⟩ }

def msC7 : MasterStats := ⟨5, none⟩

/-- One new data-type file of the merge scenario. -/
def filesC7 : List DatatypeFile := [⟨"Coding", "abcd1234", 3, none⟩]

end UpdateDatatypesIndex

/-! ## Dictionary lemmas -/

@[simp] theorem dictLookup_nil {α : Type} (k : String) :
    dictLookup ([] : List (String × α)) k = none := rfl

theorem dictLookup_insert_self {α : Type} (d : List (String × α)) (k : String) (v : α) :
    dictLookup (dictInsert d k v) k = some v := by
  induction d with
  | nil => simp [dictInsert, dictLookup]
  | cons hd tl ih =>
      by_cases h : hd.1 = k
      · simp [dictInsert, dictLookup, h]
      · simp [dictInsert, dictLookup, h, ih]

theorem dictLookup_insert_ne {α : Type} (d : List (String × α)) (k k' : String) (v : α)
    (h : k ≠ k') : dictLookup (dictInsert d k v) k' = dictLookup d k' := by
  induction d with
  | nil => simp [dictInsert, dictLookup, h]
  | cons hd tl ih =>
      by_cases hh : hd.1 = k
      · simp [dictInsert, dictLookup, hh, h]
      · simp only [dictInsert, hh, if_false]
        by_cases hk : hd.1 = k'
        · simp [dictLookup, hk]
        · simp [dictLookup, hk, ih]

theorem dictInsert_id {α : Type} (d : List (String × α)) (k : String) (v : α)
    (h : dictLookup d k = some v) : dictInsert d k v = d := by
  induction d with
  | nil => simp [dictLookup] at h
  | cons hd tl ih =>
      by_cases hh : hd.1 = k
      · simp only [dictLookup, hh, if_pos rfl] at h
        cases h
        simp [dictInsert, hh]
        exact (Prod.ext hh.symm rfl)
      · simp only [dictLookup, hh, if_false] at h
        simp [dictInsert, hh, ih h]

theorem dictContains_insert {α : Type} (d : List (String × α)) (k k' : String) (v : α)
    (h : dictContains d k' = true) : dictContains (dictInsert d k v) k' = true := by
  by_cases hk : k = k'
  · subst hk
    simp [dictContains, dictLookup_insert_self]
  · simpa [dictContains, dictLookup_insert_ne d k k' v hk] using h

set_option maxRecDepth 100000 in
/-- Known-answer check for the SHA-256 model: digest of the three bytes of
the string abc, matching hashlib. -/
theorem sha256_abc_known_answer :
    sha256hex (utf8 "abc") =
      "ba7816bf8f01cfea414140de5dae2223b00361a396177a9cb410ff61f20015ad" := by
  decide

/-! ## Order theory of the code-point string comparison -/

theorem charToNat_inj {a b : Char} (h : a.toNat = b.toNat) : a = b := by
  cases a with
  | mk v1 h1 =>
      cases b with
      | mk v2 h2 =>
          simp only [Char.toNat] at h
          congr 1
          cases v1
          cases v2
          simp only [UInt32.toNat] at h
          congr 1
          exact BitVec.toNat_injective h

theorem strLtB_irrefl : ∀ l : List Char, strLtB l l = false := by
  intro l
  induction l with
  | nil => rfl
  | cons a as ih => simp [strLtB, ih]

theorem strLtB_asymm : ∀ l1 l2 : List Char, strLtB l1 l2 = true → strLtB l2 l1 = false := by
  intro l1
  induction l1 with
  | nil =>
      intro l2 h
      cases l2 with
      | nil => simp [strLtB] at h
      | cons b bs => rfl
  | cons a as ih =>
      intro l2 h
      cases l2 with
      | nil => simp [strLtB] at h
      | cons b bs =>
          simp only [strLtB] at h ⊢
          by_cases hab : a.toNat < b.toNat
          · have hba : ¬ b.toNat < a.toNat := by omega
            simp [hab, hba]
          · by_cases hba : b.toNat < a.toNat
            · simp [hab, hba] at h
            · simp only [hab, hba, if_false] at h
              simp [hab, hba, ih bs h]

theorem strLtB_trans : ∀ l1 l2 l3 : List Char, strLtB l1 l2 = true →
    strLtB l2 l3 = true → strLtB l1 l3 = true := by
  intro l1
  induction l1 with
  | nil =>
      intro l2 l3 h1 h2
      cases l3 with
      | nil =>
          cases l2 with
          | nil => simpa using h1
          | cons b bs => simp [strLtB] at h2
      | cons c cs => rfl
  | cons a as ih =>
      intro l2 l3 h1 h2
      cases l2 with
      | nil => simp [strLtB] at h1
      | cons b bs =>
          cases l3 with
          | nil => simp [strLtB] at h2
          | cons c cs =>
              simp only [strLtB] at h1 h2 ⊢
              by_cases hab : a.toNat < b.toNat <;> by_cases hbc : b.toNat < c.toNat
              · have hac : a.toNat < c.toNat := by omega
                simp [hac]
              · by_cases hcb : c.toNat < b.toNat
                · simp [hbc, hcb] at h2
                · have hac : a.toNat < c.toNat := by omega
                  simp [hac]
              · by_cases hba : b.toNat < a.toNat
                · simp [hab, hba] at h1
                · have hac : a.toNat < c.toNat := by omega
                  simp [hac]
              · by_cases hba : b.toNat < a.toNat
                · simp [hab, hba] at h1
                · by_cases hcb : c.toNat < b.toNat
                  · simp [hbc, hcb] at h2
                  · have hac : ¬ a.toNat < c.toNat := by omega
                    have hca : ¬ c.toNat < a.toNat := by omega
                    simp only [hab, hba, if_false] at h1
                    simp only [hbc, hcb, if_false] at h2
                    simp [hac, hca, ih bs cs h1 h2]

theorem strLtB_total_of_ne : ∀ l1 l2 : List Char, l1 ≠ l2 →
    strLtB l1 l2 = true ∨ strLtB l2 l1 = true := by
  intro l1
  induction l1 with
  | nil =>
      intro l2 h
      cases l2 with
      | nil => exact absurd rfl h
      | cons b bs => exact Or.inl rfl
  | cons a as ih =>
      intro l2 h
      cases l2 with
      | nil => exact Or.inr rfl
      | cons b bs =>
          by_cases hab : a.toNat < b.toNat
          · exact Or.inl (by simp [strLtB, hab])
          · by_cases hba : b.toNat < a.toNat
            · exact Or.inr (by simp [strLtB, hba])
            · have hEq : a = b := charToNat_inj (by omega)
              subst hEq
              have hne : as ≠ bs := fun hh => h (by rw [hh])
              rcases ih bs hne with h1 | h1
              · exact Or.inl (by simp [strLtB, hab, h1])
              · exact Or.inr (by simp [strLtB, hab, h1])

theorem strLeB_total (a b : String) : strLeB a b = true ∨ strLeB b a = true := by
  by_cases h : strLtB b.data a.data = true
  · right
    unfold strLeB
    simp [strLtB_asymm _ _ h]
  · left
    unfold strLeB
    simp only [Bool.not_eq_true] at h
    simp [h]

theorem strLeB_trans (a b c : String) (h1 : strLeB a b = true)
    (h2 : strLeB b c = true) : strLeB a c = true := by
  unfold strLeB at h1 h2 ⊢
  simp only [Bool.not_eq_true'] at h1 h2
  simp only [Bool.not_eq_true']
  by_contra hcon
  simp only [Bool.not_eq_false] at hcon
  by_cases heq : b.data = a.data
  · rw [heq] at h2
    rw [h2] at hcon
    cases hcon
  · rcases strLtB_total_of_ne b.data a.data heq with hba | hab
    · rw [h1] at hba
      cases hba
    · have : strLtB c.data b.data = true := strLtB_trans _ _ _ hcon hab
      rw [h2] at this
      cases this

/-- Strings differing as values differ in their character lists. -/
theorem strData_ne {a b : String} (h : a ≠ b) : a.data ≠ b.data := by
  intro hd
  apply h
  cases a
  cases b
  exact congrArg String.mk hd

theorem sortStrings_sorted (l : List String) :
    List.Sorted (fun a b => strLeB a b = true) (UpdateDatatypesIndex.sortStrings l) := by
  haveI : IsTotal String (fun a b => strLeB a b = true) := ⟨strLeB_total⟩
  haveI : IsTrans String (fun a b => strLeB a b = true) := ⟨strLeB_trans⟩
  exact List.sorted_insertionSort _ l

theorem sortStrings_idem (l : List String) :
    UpdateDatatypesIndex.sortStrings (UpdateDatatypesIndex.sortStrings l) =
      UpdateDatatypesIndex.sortStrings l :=
  List.Sorted.insertionSort_eq (sortStrings_sorted l)

theorem mem_sortStrings (l : List String) (x : String) :
    x ∈ UpdateDatatypesIndex.sortStrings l ↔ x ∈ l :=
  (List.perm_insertionSort _ l).mem_iff

/-! ## Fold lemmas over dictionaries -/

theorem mem_of_dictLookup {α : Type} (d : List (String × α)) (k : String) (v : α)
    (h : dictLookup d k = some v) : (k, v) ∈ d := by
  induction d with
  | nil => simp [dictLookup] at h
  | cons hd tl ih =>
      by_cases hh : hd.1 = k
      · simp only [dictLookup, hh, if_pos rfl] at h
        cases h
        have hhd : hd = (k, hd.2) := Prod.ext hh rfl
        rw [← hhd]
        exact List.mem_cons_self _ _
      · simp only [dictLookup, hh, if_false] at h
        exact List.mem_cons_of_mem _ (ih h)

theorem dictLookup_foldl_insert_of_ne {α β : Type} (f : β → String) (g : β → α)
    (l : List β) (d : List (String × α)) (k : String) (h : ∀ b ∈ l, f b ≠ k) :
    dictLookup (l.foldl (fun acc b => dictInsert acc (f b) (g b)) d) k =
      dictLookup d k := by
  induction l generalizing d with
  | nil => rfl
  | cons x xs ih =>
      simp only [List.foldl_cons]
      rw [ih _ (fun b hb => h b (List.mem_cons_of_mem _ hb))]
      exact dictLookup_insert_ne d (f x) k (g x) (h x (List.mem_cons_self _ _))

theorem dictLookup_foldl_insert_self {α β : Type} (f : β → String) (g : β → α)
    (l : List β) (d : List (String × α)) (b : β) (hb : b ∈ l)
    (hnd : (l.map f).Nodup) :
    dictLookup (l.foldl (fun acc b => dictInsert acc (f b) (g b)) d) (f b) =
      some (g b) := by
  induction l generalizing d with
  | nil => cases hb
  | cons x xs ih =>
      simp only [List.map_cons, List.nodup_cons] at hnd
      rcases List.mem_cons.mp hb with rfl | hmem
      · simp only [List.foldl_cons]
        rw [dictLookup_foldl_insert_of_ne f g xs _ (f b)
          (fun c hc he => hnd.1 (he ▸ List.mem_map_of_mem f hc))]
        exact dictLookup_insert_self d (f b) (g b)
      · simp only [List.foldl_cons]
        exact ih _ hmem hnd.2

theorem foldl_insert_idem {α β : Type} (f : β → String) (g : β → α)
    (l : List β) (d : List (String × α))
    (h : ∀ b ∈ l, dictLookup d (f b) = some (g b)) :
    l.foldl (fun acc b => dictInsert acc (f b) (g b)) d = d := by
  induction l with
  | nil => rfl
  | cons x xs ih =>
      simp only [List.foldl_cons]
      rw [dictInsert_id d (f x) (g x) (h x (List.mem_cons_self _ _))]
      exact ih (fun b hb => h b (List.mem_cons_of_mem _ hb))

theorem dictContains_foldl_insert {α β : Type} (f : β → String) (g : β → α)
    (l : List β) (d : List (String × α)) (k : String)
    (h : dictContains d k = true) :
    dictContains (l.foldl (fun acc b => dictInsert acc (f b) (g b)) d) k = true := by
  induction l generalizing d with
  | nil => exact h
  | cons x xs ih => exact ih _ (dictContains_insert d (f x) k (g x) h)

theorem dictInsert_cons_pos {α : Type} (hd : String × α) (tl : List (String × α))
    (k : String) (v : α) (hh : hd.1 = k) :
    dictInsert (hd :: tl) k v = (k, v) :: tl := by
  cases hd
  simp only [dictInsert]
  rw [if_pos hh]

theorem dictInsert_cons_neg {α : Type} (hd : String × α) (tl : List (String × α))
    (k : String) (v : α) (hh : hd.1 ≠ k) :
    dictInsert (hd :: tl) k v = hd :: dictInsert tl k v := by
  cases hd
  simp only [dictInsert]
  rw [if_neg hh]

theorem mem_keys_dictInsert {α : Type} (d : List (String × α)) (k : String) (v : α)
    (x : String) (h : x ∈ (dictInsert d k v).map Prod.fst) :
    x = k ∨ x ∈ d.map Prod.fst := by
  induction d with
  | nil => simpa [dictInsert] using h
  | cons hd tl ih =>
      by_cases hh : hd.1 = k
      · rw [dictInsert_cons_pos hd tl k v hh] at h
        simp only [List.map_cons, List.mem_cons] at h
        rcases h with h | h
        · exact Or.inl h
        · exact Or.inr (List.mem_cons_of_mem _ h)
      · rw [dictInsert_cons_neg hd tl k v hh] at h
        simp only [List.map_cons, List.mem_cons] at h
        rcases h with h | h
        · exact Or.inr (List.mem_cons.mpr (Or.inl h))
        · rcases ih h with h2 | h2
          · exact Or.inl h2
          · exact Or.inr (List.mem_cons_of_mem _ h2)

theorem keys_dictInsert_nodup {α : Type} (d : List (String × α)) (k : String) (v : α)
    (h : (d.map Prod.fst).Nodup) : ((dictInsert d k v).map Prod.fst).Nodup := by
  induction d with
  | nil => simp [dictInsert]
  | cons hd tl ih =>
      simp only [List.map_cons, List.nodup_cons] at h
      by_cases hh : hd.1 = k
      · rw [dictInsert_cons_pos hd tl k v hh]
        simp only [List.map_cons, List.nodup_cons]
        exact ⟨hh ▸ h.1, h.2⟩
      · rw [dictInsert_cons_neg hd tl k v hh]
        simp only [List.map_cons, List.nodup_cons]
        refine ⟨?_, ih h.2⟩
        intro hmem
        rcases mem_keys_dictInsert tl k v hd.1 hmem with h2 | h2
        · exact hh h2
        · exact h.1 h2

theorem keys_foldl_insert_nodup {α : Type} (l : List (String × α))
    (d : List (String × α)) (hd : (d.map Prod.fst).Nodup) :
    ((l.foldl (fun acc kv => dictInsert acc kv.1 kv.2) d).map Prod.fst).Nodup := by
  induction l generalizing d with
  | nil => exact hd
  | cons x xs ih =>
      simp only [List.foldl_cons]
      exact ih _ (keys_dictInsert_nodup d x.1 x.2 hd)

theorem dictLookup_foldl_update {α β : Type} (k : String) (dflt : α)
    (hstep : β → α → α) (l : List β) (d : List (String × α)) (v : α)
    (hv : dictLookup d k = some v) :
    dictLookup (l.foldl (fun acc b => dictUpdate acc k dflt (hstep b)) d) k =
      some (l.foldl (fun val b => hstep b val) v) := by
  induction l generalizing d v with
  | nil => simpa using hv
  | cons x xs ih =>
      simp only [List.foldl_cons]
      apply ih
      simp [dictUpdate, hv, dictLookup_insert_self]

theorem foldl_update_id {α β : Type} (k : String) (dflt : α) (hstep : β → α → α)
    (l : List β) (d : List (String × α)) (v : α) (hv : dictLookup d k = some v)
    (hid : ∀ b ∈ l, hstep b v = v) :
    l.foldl (fun acc b => dictUpdate acc k dflt (hstep b)) d = d := by
  induction l with
  | nil => rfl
  | cons x xs ih =>
      simp only [List.foldl_cons]
      have h1 : dictUpdate d k dflt (hstep x) = d := by
        unfold dictUpdate
        rw [hv]
        simp only [Option.getD_some]
        rw [hid x (List.mem_cons_self _ _)]
        exact dictInsert_id d k v hv
      rw [h1]
      exact ih (fun b hb => hid b (List.mem_cons_of_mem _ hb))

theorem foldl_setAppend_preserves {β : Type} (nameOf : β → String) (l : List β)
    (v0 : List String) (n : String) (h : n ∈ v0) :
    n ∈ l.foldl
      (fun acc x => if acc.contains (nameOf x) then acc else acc ++ [nameOf x]) v0 := by
  induction l generalizing v0 with
  | nil => exact h
  | cons x xs ih =>
      simp only [List.foldl_cons]
      apply ih
      by_cases hc : nameOf x ∈ v0
      · simp [hc, h]
      · simp [hc, h]

theorem foldl_setAppend_mem {β : Type} (nameOf : β → String) (l : List β)
    (v0 : List String) (b : β) (hb : b ∈ l) :
    nameOf b ∈ l.foldl
      (fun acc x => if acc.contains (nameOf x) then acc else acc ++ [nameOf x]) v0 := by
  induction l generalizing v0 with
  | nil => cases hb
  | cons x xs ih =>
      rcases List.mem_cons.mp hb with rfl | hmem
      · simp only [List.foldl_cons]
        apply foldl_setAppend_preserves
        by_cases hc : nameOf b ∈ v0
        · simp [hc]
        · simp [hc]
      · simp only [List.foldl_cons]
        exact ih _ hmem

/-! ## Projection lemmas for the resource-index folds -/

theorem foldl_fhir_step_byName (fs : FetchRealData.FileSystem)
    (l : List (String × FetchRealData.Processed)) (idx : FetchRealData.ResourceIndex) :
    (l.foldl (FetchRealData.fhir_index_step fs) idx).byName =
      l.foldl
        (fun bn kv => dictInsert bn kv.1 (FetchRealData.fhirByNameRec fs kv.1 kv.2))
        idx.byName := by
  induction l generalizing idx with
  | nil => rfl
  | cons x xs ih => simp only [List.foldl_cons, ih, FetchRealData.fhir_index_step]

theorem foldl_fhir_step_bySpecFhir (fs : FetchRealData.FileSystem)
    (l : List (String × FetchRealData.Processed)) (idx : FetchRealData.ResourceIndex) :
    (l.foldl (FetchRealData.fhir_index_step fs) idx).bySpecFhir =
      idx.bySpecFhir ++ l.map Prod.fst := by
  induction l generalizing idx with
  | nil => simp
  | cons x xs ih =>
      simp only [List.foldl_cons, ih, FetchRealData.fhir_index_step, List.map_cons]
      simp [List.append_assoc]

theorem foldl_fhir_step_byTypeResource (fs : FetchRealData.FileSystem)
    (l : List (String × FetchRealData.Processed)) (idx : FetchRealData.ResourceIndex) :
    (l.foldl (FetchRealData.fhir_index_step fs) idx).byTypeResource =
      idx.byTypeResource ++ l.map Prod.fst := by
  induction l generalizing idx with
  | nil => simp
  | cons x xs ih =>
      simp only [List.foldl_cons, ih, FetchRealData.fhir_index_step, List.map_cons]
      simp [List.append_assoc]

theorem foldl_fhir_step_bySpecUsCore (fs : FetchRealData.FileSystem)
    (l : List (String × FetchRealData.Processed)) (idx : FetchRealData.ResourceIndex) :
    (l.foldl (FetchRealData.fhir_index_step fs) idx).bySpecUsCore = idx.bySpecUsCore := by
  induction l generalizing idx with
  | nil => rfl
  | cons x xs ih => simp only [List.foldl_cons, ih, FetchRealData.fhir_index_step]

theorem foldl_fhir_step_byTypeProfile (fs : FetchRealData.FileSystem)
    (l : List (String × FetchRealData.Processed)) (idx : FetchRealData.ResourceIndex) :
    (l.foldl (FetchRealData.fhir_index_step fs) idx).byTypeProfile = idx.byTypeProfile := by
  induction l generalizing idx with
  | nil => rfl
  | cons x xs ih => simp only [List.foldl_cons, ih, FetchRealData.fhir_index_step]

theorem foldl_us_step_bySpecUsCore (fs : FetchRealData.FileSystem)
    (l : List (String × FetchRealData.Processed)) (idx : FetchRealData.ResourceIndex) :
    (l.foldl (FetchRealData.us_index_step fs) idx).bySpecUsCore =
      idx.bySpecUsCore ++ l.map Prod.fst := by
  induction l generalizing idx with
  | nil => simp
  | cons x xs ih =>
      simp only [List.foldl_cons, ih, FetchRealData.us_index_step, List.map_cons]
      simp [List.append_assoc]

theorem foldl_us_step_byTypeProfile (fs : FetchRealData.FileSystem)
    (l : List (String × FetchRealData.Processed)) (idx : FetchRealData.ResourceIndex) :
    (l.foldl (FetchRealData.us_index_step fs) idx).byTypeProfile =
      idx.byTypeProfile ++ l.map Prod.fst := by
  induction l generalizing idx with
  | nil => simp
  | cons x xs ih =>
      simp only [List.foldl_cons, ih, FetchRealData.us_index_step, List.map_cons]
      simp [List.append_assoc]

theorem foldl_us_step_bySpecFhir (fs : FetchRealData.FileSystem)
    (l : List (String × FetchRealData.Processed)) (idx : FetchRealData.ResourceIndex) :
    (l.foldl (FetchRealData.us_index_step fs) idx).bySpecFhir = idx.bySpecFhir := by
  induction l generalizing idx with
  | nil => rfl
  | cons x xs ih => simp only [List.foldl_cons, ih, FetchRealData.us_index_step]

theorem foldl_us_step_byTypeResource (fs : FetchRealData.FileSystem)
    (l : List (String × FetchRealData.Processed)) (idx : FetchRealData.ResourceIndex) :
    (l.foldl (FetchRealData.us_index_step fs) idx).byTypeResource =
      idx.byTypeResource := by
  induction l generalizing idx with
  | nil => rfl
  | cons x xs ih => simp only [List.foldl_cons, ih, FetchRealData.us_index_step]

/-! ## Claim theorems -/

/-- C1 (amended): two documents resolving to the same name within the same
specification family never raise anything: the accumulation dictionary
collapses them by last-write-wins before the index is built (the model is
a total function, so no DuplicateEntryName error can exist), and the
resource index then reflects the surviving, latest document under that
name in byName. -/
theorem c1_last_write_wins (docs : List (String × FetchRealData.Processed))
    (n : String) (p : FetchRealData.Processed) (fs : FetchRealData.FileSystem) :
    dictLookup (FetchRealData.accumulate (docs ++ [(n, p)])) n = some p ∧
    dictLookup ((FetchRealData.generate_resource_index fs
        (FetchRealData.accumulate (docs ++ [(n, p)])) []).byName) n =
      some (FetchRealData.fhirByNameRec fs n p) := by
  have hacc : dictLookup (FetchRealData.accumulate (docs ++ [(n, p)])) n = some p := by
    unfold FetchRealData.accumulate
    rw [List.foldl_append]
    simp only [List.foldl_cons, List.foldl_nil]
    exact dictLookup_insert_self _ n p
  refine ⟨hacc, ?_⟩
  have hnd : ((FetchRealData.accumulate (docs ++ [(n, p)])).map Prod.fst).Nodup := by
    unfold FetchRealData.accumulate
    exact keys_foldl_insert_nodup _ [] (by simp)
  have hmem : (n, p) ∈ FetchRealData.accumulate (docs ++ [(n, p)]) :=
    mem_of_dictLookup _ _ _ hacc
  have hby : (FetchRealData.generate_resource_index fs
      (FetchRealData.accumulate (docs ++ [(n, p)])) []).byName =
      (FetchRealData.accumulate (docs ++ [(n, p)])).foldl
        (fun bn kv => dictInsert bn kv.1 (FetchRealData.fhirByNameRec fs kv.1 kv.2))
        [] := by
    unfold FetchRealData.generate_resource_index
    simp only [List.foldl_nil]
    exact foldl_fhir_step_byName fs _ _
  rw [hby]
  exact dictLookup_foldl_insert_self Prod.fst
    (fun kv => FetchRealData.fhirByNameRec fs kv.1 kv.2) _ [] (n, p) hmem hnd

/-- C1 counterexample: two documents named Patient in the fhir-r4 family;
the second silently overwrites the first in the accumulation dictionary
and hence in byName, whose record carries the element count of the second
document, and no error is raised anywhere: last-write-wins is the
outcome. -/
theorem c1_duplicate_overwrite_cex :
    FetchRealData.accumulate
      [("Patient", FetchRealData.procNoElems), ("Patient", FetchRealData.procOneElem)] =
      [("Patient", FetchRealData.procOneElem)] ∧
    (dictLookup ((FetchRealData.generate_resource_index FetchRealData.fsEmpty
        (FetchRealData.accumulate
          [("Patient", FetchRealData.procNoElems),
           ("Patient", FetchRealData.procOneElem)]) []).byName) "Patient").map
      (fun r => r.elementCount) = some 1 ∧
    FetchRealData.procNoElems.elements.length = 0 := by
  exact ⟨rfl, rfl, rfl⟩

/-- C4 (amended): resource-index construction is deterministic as a
function of the presented sequence, but sensitive to iteration order: the
bySpec and byType lists are exactly the input names in iteration order,
not sorted, so presenting the same entry set in another order permutes
them and changes the persisted bytes. -/
theorem c4_insertion_order (fs : FetchRealData.FileSystem)
    (fhir us : List (String × FetchRealData.Processed)) :
    (FetchRealData.generate_resource_index fs fhir us).bySpecFhir =
      fhir.map Prod.fst ∧
    (FetchRealData.generate_resource_index fs fhir us).bySpecUsCore =
      us.map Prod.fst ∧
    (FetchRealData.generate_resource_index fs fhir us).byTypeResource =
      fhir.map Prod.fst ∧
    (FetchRealData.generate_resource_index fs fhir us).byTypeProfile =
      us.map Prod.fst := by
  unfold FetchRealData.generate_resource_index
  refine ⟨?_, ?_, ?_, ?_⟩
  · rw [foldl_us_step_bySpecFhir, foldl_fhir_step_bySpecFhir]
    simp
  · rw [foldl_us_step_bySpecUsCore, foldl_fhir_step_bySpecUsCore]
    simp
  · rw [foldl_us_step_byTypeResource, foldl_fhir_step_byTypeResource]
    simp
  · rw [foldl_us_step_byTypeProfile, foldl_fhir_step_byTypeProfile]
    simp

/-- C4 counterexample: the same two-entry set presented in its two orders
produces different bySpec lists, so the outputs are not byte-identical,
and the emitted list is not sorted before persistence. -/
theorem c4_order_sensitivity_cex :
    (FetchRealData.generate_resource_index FetchRealData.fsEmpty
      [("A", FetchRealData.procNoElems), ("B", FetchRealData.procOneElem)] []).bySpecFhir
      = ["A", "B"] ∧
    (FetchRealData.generate_resource_index FetchRealData.fsEmpty
      [("B", FetchRealData.procOneElem), ("A", FetchRealData.procNoElems)] []).bySpecFhir
      = ["B", "A"] ∧
    UpdateDatatypesIndex.sortStrings ["B", "A"] = ["A", "B"] := by
  exact ⟨rfl, rfl, by decide⟩

/-- C2 (amended): cardinality handling of the element normalizers. A
missing min defaults to 0 and a missing max defaults to the string 1 in
fetch_real_data (to a star in download_specs); any max string, a star or a
non-numeric value alike, is stored verbatim inside the record and the
cardinality display string; no parsing, no validation and no
MalformedCardinality error exists, and the element is kept, not skipped. -/
theorem c2_cardinality_defaults (e : FetchRealData.RawElement)
    (h : FetchRealData.keepElement e = true) :
    FetchRealData.process_elements [e] false = [FetchRealData.element_info e false] ∧
    (FetchRealData.element_info e false).min = e.min.getD 0 ∧
    (FetchRealData.element_info e false).max = e.max.getD "1" ∧
    (FetchRealData.element_info e false).cardinality =
      toString (e.min.getD 0) ++ ".." ++ e.max.getD "1" ∧
    (DownloadSpecs.process_element e).map (fun r => r.cardinality) =
      some (toString (e.min.getD 0) ++ ".." ++ e.max.getD "*") := by
  have hk := h
  simp only [FetchRealData.keepElement, Bool.and_eq_true, Bool.not_eq_true',
    beq_eq_false_iff_ne, ne_eq] at hk
  refine ⟨by simp [FetchRealData.process_elements, h], rfl, rfl, rfl, ?_⟩
  simp only [FetchRealData.pathOf] at hk
  have hcond : ¬(e.path.getD "" = "" ∨
      ¬(containsChar (e.path.getD "") (Char.ofNat 46) = true)) := by
    push_neg
    exact ⟨hk.1, hk.2⟩
  simp only [DownloadSpecs.process_element]
  rw [if_neg hcond]
  rfl

/-- C2 witness: a concrete element with path Patient.x and max banana. -/
theorem c2_cardinality_defaults_witness :
    FetchRealData.process_elements [FetchRealData.bananaElem] false =
      [FetchRealData.element_info FetchRealData.bananaElem false] ∧
    (FetchRealData.element_info FetchRealData.bananaElem false).min =
      FetchRealData.bananaElem.min.getD 0 ∧
    (FetchRealData.element_info FetchRealData.bananaElem false).max =
      FetchRealData.bananaElem.max.getD "1" ∧
    (FetchRealData.element_info FetchRealData.bananaElem false).cardinality =
      toString (FetchRealData.bananaElem.min.getD 0) ++ ".." ++
        FetchRealData.bananaElem.max.getD "1" ∧
    (DownloadSpecs.process_element FetchRealData.bananaElem).map
        (fun r => r.cardinality) =
      some (toString (FetchRealData.bananaElem.min.getD 0) ++ ".." ++
        FetchRealData.bananaElem.max.getD "*") :=
  c2_cardinality_defaults FetchRealData.bananaElem (by decide)

/-- C2 counterexample: an element whose max value banana does not parse as
a non-negative integer is not skipped and raises nothing; it is produced
with the malformed max stored verbatim. -/
theorem c2_malformed_max_kept_cex :
    (FetchRealData.process_elements [FetchRealData.bananaElem] false).map
      (fun r => r.max) = ["banana"] ∧
    (FetchRealData.process_elements [FetchRealData.bananaElem] false).length = 1 := by
  exact ⟨rfl, rfl⟩

/-- C3 (confirmed): elements whose path is missing, empty or undotted are
excluded from the produced element sequence: processing a list equals
processing its kept sublist, a concrete root element with path Observation
yields nothing, a path-less element yields nothing, and the download_specs
processor also returns none for a root element. Indexes only consume the
produced element sequences, so such elements reach no index. -/
theorem c3_root_elements_excluded (es : List FetchRealData.RawElement)
    (is_profile : Bool) :
    FetchRealData.process_elements es is_profile =
      FetchRealData.process_elements (es.filter FetchRealData.keepElement) is_profile ∧
    FetchRealData.process_elements
      [FetchRealData.mkRawElement (some "Observation")] is_profile = [] ∧
    FetchRealData.process_elements [FetchRealData.mkRawElement none] is_profile = [] ∧
    DownloadSpecs.process_element (FetchRealData.mkRawElement (some "Observation")) =
      none := by
  refine ⟨?_, ?_, ?_, by decide⟩
  · induction es with
    | nil => rfl
    | cons e rest ih =>
        cases hE : FetchRealData.keepElement e with
        | true => simp [FetchRealData.process_elements, List.filter_cons, hE, ih]
        | false => simp [FetchRealData.process_elements, List.filter_cons, hE, ih]
  · have hE : FetchRealData.keepElement (FetchRealData.mkRawElement (some "Observation")) =
        false := by decide
    simp [FetchRealData.process_elements, hE]
  · have hE : FetchRealData.keepElement (FetchRealData.mkRawElement none) = false := by
      decide
    simp [FetchRealData.process_elements, hE]

/-- C8 (amended): element paths are carried verbatim from the raw document
into the produced records, with no renaming to the catalog name of the
owning entry; the cleaned catalog name of a US Core profile differs from
the base resource type that its paths begin with. -/
theorem c8_paths_verbatim (es : List FetchRealData.RawElement) (b : Bool) :
    (FetchRealData.process_elements es b).map (fun r => r.path) =
      (es.filter FetchRealData.keepElement).map FetchRealData.pathOf ∧
    FetchRealData.clean_profile_name "us-core-patient" = "USCorePatient" := by
  refine ⟨?_, by decide⟩
  induction es with
  | nil => rfl
  | cons e rest ih =>
      cases hE : FetchRealData.keepElement e with
      | true =>
          simp [FetchRealData.process_elements, List.filter_cons, hE, ih,
            FetchRealData.element_info, FetchRealData.pathOf]
      | false => simp [FetchRealData.process_elements, List.filter_cons, hE, ih]

/-- C8 counterexample: a profile stored under the cleaned catalog name
USCorePatient keeps its element path Patient.name, which does not start
with the owning entry name followed by a dot. -/
theorem c8_profile_path_not_prefixed_cex :
    FetchRealData.clean_profile_name "us-core-patient" = "USCorePatient" ∧
    (FetchRealData.process_us_core_profile FetchRealData.usCorePatientDoc).elements.map
      (fun r => r.path) = ["Patient.name"] ∧
    strStartsWith "Patient.name" ("USCorePatient" ++ ".") = false := by
  refine ⟨by decide, rfl, by decide⟩

/-- C9 (amended): when a document carries both element lists, the
data-type fetcher selects the differential, not the snapshot, while
fetch_real_data reads only the snapshot and its output does not depend on
the differential at all. -/
theorem c9_element_list_selection (sd : FetchRealData.RawStructureDef)
    (ds ss : List FetchRealData.RawElement)
    (d1 d2 : Option FetchRealData.RawSnapshot) :
    FetchDatatypes.selected_elements
        { sd with differential := some ⟨some ds⟩, snapshot := some ⟨some ss⟩ } = ds ∧
    FetchRealData.process_fhir_structure_definition { sd with differential := d1 } =
      FetchRealData.process_fhir_structure_definition { sd with differential := d2 } :=
  ⟨rfl, rfl⟩

/-- C9 counterexample: on a document with both lists the data-type
processor produces the differential member, not the snapshot member. -/
theorem c9_differential_preferred_cex :
    (FetchDatatypes.process_structure_definition FetchRealData.bothListsDoc).elements.map
      (fun e => e.path) = ["Extension.url"] ∧
    (FetchRealData.snapshot_elements FetchRealData.bothListsDoc).map
      FetchRealData.pathOf = ["Extension.id"] :=
  ⟨rfl, rfl⟩

/-- C10 (confirmed): calculate_file_hash is total; an unreadable file
yields the constant sentinel, and any two unreadable files receive equal
fingerprints, so hash-based comparison cannot distinguish them. -/
theorem c10_file_hash_total_sentinel (fs fs2 : FetchRealData.FileSystem)
    (p q : String) (hp : fs p = none) (hq : fs2 q = none) :
    FetchRealData.calculate_file_hash fs p = "sha256:unknown" ∧
    FetchRealData.calculate_file_hash fs p = FetchRealData.calculate_file_hash fs2 q := by
  unfold FetchRealData.calculate_file_hash
  rw [hp, hq]
  exact ⟨rfl, rfl⟩

/-- C10 witness: the empty file system at two concrete paths. -/
theorem c10_file_hash_total_sentinel_witness :
    FetchRealData.calculate_file_hash FetchRealData.fsEmpty "a.json" = "sha256:unknown" ∧
    FetchRealData.calculate_file_hash FetchRealData.fsEmpty "a.json" =
      FetchRealData.calculate_file_hash FetchRealData.fsEmpty "b.json" :=
  c10_file_hash_total_sentinel FetchRealData.fsEmpty FetchRealData.fsEmpty
    "a.json" "b.json" rfl rfl

/-! ## Must-support tracking lemmas for the element index -/

theorem index_constraint_foldl_mustSupport (cs : List FetchRealData.ConstraintInfo)
    (idx : FetchRealData.ElementIndex) :
    (cs.foldl FetchRealData.index_constraint_step idx).mustSupportElements =
      idx.mustSupportElements := by
  induction cs generalizing idx with
  | nil => rfl
  | cons c rest ih =>
      simp only [List.foldl_cons]
      rw [ih]
      rcases hck : c.key with _ | k
      · simp [FetchRealData.index_constraint_step, hck]
      · by_cases hk : k = ""
        · simp [FetchRealData.index_constraint_step, hck, hk]
        · simp [FetchRealData.index_constraint_step, hck, hk]

theorem index_element_mustSupport_not_profile (rn : String)
    (rd : FetchRealData.Processed) (h : rd.type ≠ "profile")
    (idx : FetchRealData.ElementIndex) (e : FetchRealData.ElementInfo) :
    (FetchRealData.index_element rn rd idx e).mustSupportElements =
      idx.mustSupportElements := by
  have hb : (rd.type == "profile") = false := beq_eq_false_iff_ne.mpr h
  simp only [FetchRealData.index_element]
  rw [index_constraint_foldl_mustSupport]
  simp only [hb, Bool.and_false, Bool.false_eq_true, if_false]
  split <;> split <;> split <;> rfl

theorem foldl_index_element_mustSupport (rn : String) (rd : FetchRealData.Processed)
    (h : rd.type ≠ "profile") (es : List FetchRealData.ElementInfo)
    (idx : FetchRealData.ElementIndex) :
    (es.foldl (FetchRealData.index_element rn rd) idx).mustSupportElements =
      idx.mustSupportElements := by
  induction es generalizing idx with
  | nil => rfl
  | cons e rest ih =>
      simp only [List.foldl_cons]
      rw [ih, index_element_mustSupport_not_profile rn rd h]

theorem gen_element_index_mustSupport_empty
    (all_data : List (String × FetchRealData.Processed))
    (h : ∀ kv ∈ all_data, kv.2.type ≠ "profile") :
    (FetchRealData.generate_element_index all_data).mustSupportElements = [] := by
  unfold FetchRealData.generate_element_index
  suffices hs : ∀ (l : List (String × FetchRealData.Processed))
      (idx : FetchRealData.ElementIndex), (∀ kv ∈ l, kv.2.type ≠ "profile") →
      ((l.foldl
        (fun idx kv => kv.2.elements.foldl (FetchRealData.index_element kv.1 kv.2) idx)
        idx).mustSupportElements) = idx.mustSupportElements by
    exact hs all_data _ h
  intro l
  induction l with
  | nil =>
      intro idx h2
      rfl
  | cons x xs ih =>
      intro idx h2
      simp only [List.foldl_cons]
      rw [ih _ (fun kv hkv => h2 kv (List.mem_cons_of_mem _ hkv)),
        foldl_index_element_mustSupport x.1 x.2 (h2 x (List.mem_cons_self _ _))]

/-- C6 (confirmed): the must-support scenario. Processing the profile
document named Patient with the two scenario elements yields a
must-support count of one; building the element index over the catalog
holding that entry under the name Patient yields exactly the mapping from
Patient to the field list holding name; and entries whose type is not
profile contribute nothing to must-support tracking, whatever their
elements say. -/
theorem c6_must_support_scenario :
    (FetchRealData.process_us_core_profile
      FetchRealData.patientProfileDoc).mustSupportCount = some 1 ∧
    (FetchRealData.generate_element_index
      [("Patient", FetchRealData.process_us_core_profile
        FetchRealData.patientProfileDoc)]).mustSupportElements =
      [("Patient", ["name"])] ∧
    ∀ all_data : List (String × FetchRealData.Processed),
      (∀ kv ∈ all_data, kv.2.type ≠ "profile") →
      (FetchRealData.generate_element_index all_data).mustSupportElements = [] :=
  ⟨rfl, rfl, fun all_data h => gen_element_index_mustSupport_empty all_data h⟩

/-- C6 witness: the hypothesis of the universal conjunct discharged at a
one-entry catalog holding a resource-typed entry. -/
theorem c6_must_support_scenario_witness :
    (FetchRealData.generate_element_index
      [("Patient", FetchRealData.procOneElem)]).mustSupportElements = [] :=
  c6_must_support_scenario.2.2 [("Patient", FetchRealData.procOneElem)] (by decide)

set_option maxRecDepth 1000000 in
/-- C5 counterexample: two persisted entries with identical semantic
content, the same two-member mapping in its two key orders, receive
different fingerprints from calculate_file_hash, because that hash is
computed over the serialized bytes in insertion order, not over a
canonical ordering. -/
theorem c5_reordered_keys_hash_differ_cex :
    jsonSemEq jsonAB jsonBA = true ∧
    FetchRealData.calculate_file_hash fsC5 "entryA.json" ≠
      FetchRealData.calculate_file_hash fsC5 "entryB.json" := by
  constructor
  · decide
  · decide

/-- C5 (amended): the two hash paths disagree about canonical ordering.
The _metadata hash of the data-type fetcher serializes with sorted keys,
so swapping the two members of any two-member mapping never changes it;
calculate_file_hash hashes the persisted bytes in insertion order, so the
same swap changes that fingerprint, as the counterexample shows. -/
theorem c5_sorted_metadata_hash_stable (k1 k2 : String) (v1 v2 : Json)
    (h : k1 ≠ k2) :
    FetchDatatypes.metadata_hash (.obj (JsonObj.ofList [(k1, v1), (k2, v2)])) =
      FetchDatatypes.metadata_hash (.obj (JsonObj.ofList [(k2, v2), (k1, v1)])) := by
  have hsp : ∀ (a b : String × Json), sortPairsJ [a, b] =
      if strLeB a.1 b.1 = true then [a, b] else [b, a] := by
    intro a b
    simp [sortPairsJ, List.insertionSort, List.orderedInsert]
  have key : ∀ (c1 c2 : Json),
      sortPairsJ [(k1, c1), (k2, c2)] = sortPairsJ [(k2, c2), (k1, c1)] := by
    intro c1 c2
    rw [hsp, hsp]
    rcases strLtB_total_of_ne k1.data k2.data (strData_ne h) with hlt | hlt
    · have h12 : strLeB k1 k2 = true := by
        unfold strLeB
        simp [strLtB_asymm _ _ hlt]
      have h21 : strLeB k2 k1 = false := by
        unfold strLeB
        simp [hlt]
      simp [h12, h21]
    · have h21 : strLeB k2 k1 = true := by
        unfold strLeB
        simp [strLtB_asymm _ _ hlt]
      have h12 : strLeB k1 k2 = false := by
        unfold strLeB
        simp [hlt]
      simp [h12, h21]
  have hs : Json.canon (.obj (JsonObj.ofList [(k1, v1), (k2, v2)])) =
      Json.canon (.obj (JsonObj.ofList [(k2, v2), (k1, v1)])) := by
    show Json.obj (JsonObj.ofList (sortPairsJ [(k1, Json.canon v1), (k2, Json.canon v2)])) =
      Json.obj (JsonObj.ofList (sortPairsJ [(k2, Json.canon v2), (k1, Json.canon v1)]))
    rw [key]
  unfold FetchDatatypes.metadata_hash dumpsSorted
  rw [hs]

/-- C5 witness: the stability of the sorted metadata hash at the concrete
two-member mapping of the counterexample. -/
theorem c5_sorted_metadata_hash_stable_witness :
    FetchDatatypes.metadata_hash (.obj (JsonObj.ofList [("a", .num 1), ("b", .num 2)])) =
      FetchDatatypes.metadata_hash
        (.obj (JsonObj.ofList [("b", .num 2), ("a", .num 1)])) :=
  c5_sorted_metadata_hash_stable "a" "b" (.num 1) (.num 2) (by decide)

/-! ## Pipeline lemmas for the incremental index merge -/

theorem ensure_key_lookup (d : List (String × List String)) (k : String) :
    ∃ v, dictLookup (UpdateDatatypesIndex.ensure_key d k) k = some v := by
  unfold UpdateDatatypesIndex.ensure_key
  by_cases h : dictContains d k = true
  · simp only [h, if_pos]
    simpa [dictContains, Option.isSome_iff_exists] using h
  · simp only [h, if_neg, Bool.false_eq_true, not_false_iff]
    exact ⟨[], dictLookup_insert_self d k []⟩

theorem append_names_lookup (d : List (String × List String)) (k : String)
    (files : List UpdateDatatypesIndex.DatatypeFile) (v : List String)
    (hv : dictLookup d k = some v) :
    dictLookup (UpdateDatatypesIndex.append_names d k files) k =
      some (files.foldl
        (fun l f => if l.contains f.name then l else l ++ [f.name]) v) := by
  unfold UpdateDatatypesIndex.append_names
  exact dictLookup_foldl_update k []
    (fun f l => if l.contains f.name then l else l ++ [f.name]) files d v hv

theorem ensure_key_of_contains (d : List (String × List String)) (k : String)
    (h : dictContains d k = true) : UpdateDatatypesIndex.ensure_key d k = d := by
  unfold UpdateDatatypesIndex.ensure_key
  simp [h]

theorem sort_key_of_sorted (d : List (String × List String)) (k : String)
    (v : List String) (hv : dictLookup d k = some v)
    (hs : UpdateDatatypesIndex.sortStrings v = v) :
    UpdateDatatypesIndex.sort_key d k = d := by
  unfold UpdateDatatypesIndex.sort_key dictUpdate
  rw [hv]
  simp only [Option.getD_some]
  rw [hs]
  exact dictInsert_id d k v hv

theorem spec_pipeline_idem (d : List (String × List String)) (k : String)
    (files : List UpdateDatatypesIndex.DatatypeFile) :
    UpdateDatatypesIndex.sort_key
      (UpdateDatatypesIndex.append_names
        (UpdateDatatypesIndex.ensure_key
          (UpdateDatatypesIndex.sort_key
            (UpdateDatatypesIndex.append_names
              (UpdateDatatypesIndex.ensure_key d k) k files) k) k) k files) k =
      UpdateDatatypesIndex.sort_key
        (UpdateDatatypesIndex.append_names
          (UpdateDatatypesIndex.ensure_key d k) k files) k := by
  obtain ⟨v0, hv0⟩ := ensure_key_lookup d k
  have hv1 := append_names_lookup (UpdateDatatypesIndex.ensure_key d k) k files v0 hv0
  have hv2 : dictLookup (UpdateDatatypesIndex.sort_key
      (UpdateDatatypesIndex.append_names
        (UpdateDatatypesIndex.ensure_key d k) k files) k) k =
      some (UpdateDatatypesIndex.sortStrings
        (files.foldl (fun l f => if l.contains f.name then l else l ++ [f.name]) v0)) := by
    unfold UpdateDatatypesIndex.sort_key dictUpdate
    rw [hv1]
    simpa using dictLookup_insert_self _ k _
  have hens : UpdateDatatypesIndex.ensure_key
      (UpdateDatatypesIndex.sort_key
        (UpdateDatatypesIndex.append_names
          (UpdateDatatypesIndex.ensure_key d k) k files) k) k =
      UpdateDatatypesIndex.sort_key
        (UpdateDatatypesIndex.append_names
          (UpdateDatatypesIndex.ensure_key d k) k files) k :=
    ensure_key_of_contains _ k (by simp [dictContains, hv2])
  rw [hens]
  have hmemV : ∀ f ∈ files, f.name ∈ UpdateDatatypesIndex.sortStrings
      (files.foldl (fun l f => if l.contains f.name then l else l ++ [f.name]) v0) := by
    intro f hf
    rw [mem_sortStrings]
    exact foldl_setAppend_mem UpdateDatatypesIndex.DatatypeFile.name files v0 f hf
  have happ : UpdateDatatypesIndex.append_names
      (UpdateDatatypesIndex.sort_key
        (UpdateDatatypesIndex.append_names
          (UpdateDatatypesIndex.ensure_key d k) k files) k) k files =
      UpdateDatatypesIndex.sort_key
        (UpdateDatatypesIndex.append_names
          (UpdateDatatypesIndex.ensure_key d k) k files) k := by
    unfold UpdateDatatypesIndex.append_names
    apply foldl_update_id k []
      (fun f l => if l.contains f.name then l else l ++ [f.name]) files _ _ hv2
    intro f hf
    have hc : (UpdateDatatypesIndex.sortStrings
        (files.foldl (fun l f => if l.contains f.name then l else l ++ [f.name])
          v0)).contains f.name = true := by
      simpa using hmemV f hf
    simp only [hc, if_pos]
  rw [happ]
  exact sort_key_of_sorted _ k _ hv2 (sortStrings_idem _)

/-- C7 (amended): merging the same batch twice leaves byName, bySpec and
byType exactly as after one merge, and the merge never removes an existing
name from byName; but the statistics are not idempotent: every merge adds
the batch size to totalResources again, so the index including its
statistics differs between one and two merges whenever the batch is
non-empty. -/
theorem c7_merge_idempotent_except_stats
    (ri : UpdateDatatypesIndex.RIFile) (ms : UpdateDatatypesIndex.MasterStats)
    (files : List UpdateDatatypesIndex.DatatypeFile)
    (hnd : (files.map UpdateDatatypesIndex.DatatypeFile.name).Nodup) :
    ((UpdateDatatypesIndex.update_indexes
        (UpdateDatatypesIndex.update_indexes ri ms files).1
        (UpdateDatatypesIndex.update_indexes ri ms files).2 files).1.byName =
      (UpdateDatatypesIndex.update_indexes ri ms files).1.byName) ∧
    ((UpdateDatatypesIndex.update_indexes
        (UpdateDatatypesIndex.update_indexes ri ms files).1
        (UpdateDatatypesIndex.update_indexes ri ms files).2 files).1.bySpec =
      (UpdateDatatypesIndex.update_indexes ri ms files).1.bySpec) ∧
    ((UpdateDatatypesIndex.update_indexes
        (UpdateDatatypesIndex.update_indexes ri ms files).1
        (UpdateDatatypesIndex.update_indexes ri ms files).2 files).1.byType =
      (UpdateDatatypesIndex.update_indexes ri ms files).1.byType) ∧
    ((UpdateDatatypesIndex.update_indexes
        (UpdateDatatypesIndex.update_indexes ri ms files).1
        (UpdateDatatypesIndex.update_indexes ri ms files).2
        files).1.statistics.totalResources =
      (UpdateDatatypesIndex.update_indexes ri ms files).1.statistics.totalResources +
        (files.length : Int)) ∧
    (∀ n, dictContains ri.byName n = true →
      dictContains (UpdateDatatypesIndex.update_indexes ri ms files).1.byName n =
        true) := by
  refine ⟨?_, ?_, ?_, rfl, ?_⟩
  · show UpdateDatatypesIndex.insert_datatypes
      (UpdateDatatypesIndex.insert_datatypes ri.byName files) files =
      UpdateDatatypesIndex.insert_datatypes ri.byName files
    unfold UpdateDatatypesIndex.insert_datatypes
    apply foldl_insert_idem UpdateDatatypesIndex.DatatypeFile.name
      UpdateDatatypesIndex.datatype_record
    intro f hf
    exact dictLookup_foldl_insert_self UpdateDatatypesIndex.DatatypeFile.name
      UpdateDatatypesIndex.datatype_record files ri.byName f hf hnd
  · exact spec_pipeline_idem ri.bySpec "fhir-r4" files
  · exact spec_pipeline_idem ri.byType "datatype" files
  · intro n hn
    show dictContains (UpdateDatatypesIndex.insert_datatypes ri.byName files) n = true
    unfold UpdateDatatypesIndex.insert_datatypes
    exact dictContains_foldl_insert UpdateDatatypesIndex.DatatypeFile.name
      UpdateDatatypesIndex.datatype_record files ri.byName n hn

/-- C7 witness: the merge scenario with one data type and duplicate-free
names. -/
theorem c7_merge_idempotent_except_stats_witness :
    ((UpdateDatatypesIndex.update_indexes
        (UpdateDatatypesIndex.update_indexes UpdateDatatypesIndex.riC7
          UpdateDatatypesIndex.msC7 UpdateDatatypesIndex.filesC7).1
        (UpdateDatatypesIndex.update_indexes UpdateDatatypesIndex.riC7
          UpdateDatatypesIndex.msC7 UpdateDatatypesIndex.filesC7).2
        UpdateDatatypesIndex.filesC7).1.byName =
      (UpdateDatatypesIndex.update_indexes UpdateDatatypesIndex.riC7
        UpdateDatatypesIndex.msC7 UpdateDatatypesIndex.filesC7).1.byName) ∧
    ((UpdateDatatypesIndex.update_indexes
        (UpdateDatatypesIndex.update_indexes UpdateDatatypesIndex.riC7
          UpdateDatatypesIndex.msC7 UpdateDatatypesIndex.filesC7).1
        (UpdateDatatypesIndex.update_indexes UpdateDatatypesIndex.riC7
          UpdateDatatypesIndex.msC7 UpdateDatatypesIndex.filesC7).2
        UpdateDatatypesIndex.filesC7).1.bySpec =
      (UpdateDatatypesIndex.update_indexes UpdateDatatypesIndex.riC7
        UpdateDatatypesIndex.msC7 UpdateDatatypesIndex.filesC7).1.bySpec) ∧
    ((UpdateDatatypesIndex.update_indexes
        (UpdateDatatypesIndex.update_indexes UpdateDatatypesIndex.riC7
          UpdateDatatypesIndex.msC7 UpdateDatatypesIndex.filesC7).1
        (UpdateDatatypesIndex.update_indexes UpdateDatatypesIndex.riC7
          UpdateDatatypesIndex.msC7 UpdateDatatypesIndex.filesC7).2
        UpdateDatatypesIndex.filesC7).1.byType =
      (UpdateDatatypesIndex.update_indexes UpdateDatatypesIndex.riC7
        UpdateDatatypesIndex.msC7 UpdateDatatypesIndex.filesC7).1.byType) ∧
    ((UpdateDatatypesIndex.update_indexes
        (UpdateDatatypesIndex.update_indexes UpdateDatatypesIndex.riC7
          UpdateDatatypesIndex.msC7 UpdateDatatypesIndex.filesC7).1
        (UpdateDatatypesIndex.update_indexes UpdateDatatypesIndex.riC7
          UpdateDatatypesIndex.msC7 UpdateDatatypesIndex.filesC7).2
        UpdateDatatypesIndex.filesC7).1.statistics.totalResources =
      (UpdateDatatypesIndex.update_indexes UpdateDatatypesIndex.riC7
        UpdateDatatypesIndex.msC7
        UpdateDatatypesIndex.filesC7).1.statistics.totalResources +
        (UpdateDatatypesIndex.filesC7.length : Int)) ∧
    (∀ n, dictContains UpdateDatatypesIndex.riC7.byName n = true →
      dictContains (UpdateDatatypesIndex.update_indexes UpdateDatatypesIndex.riC7
        UpdateDatatypesIndex.msC7 UpdateDatatypesIndex.filesC7).1.byName n = true) :=
  c7_merge_idempotent_except_stats UpdateDatatypesIndex.riC7
    UpdateDatatypesIndex.msC7 UpdateDatatypesIndex.filesC7 (by decide)

/-- C7 counterexample: merging the same one-element batch twice does not
yield the same index as merging once: totalResources rises from 5 to 6 and
then to 7, so the statistics differ between one and two merges. -/
theorem c7_stats_double_count_cex :
    (UpdateDatatypesIndex.update_indexes
      (UpdateDatatypesIndex.update_indexes UpdateDatatypesIndex.riC7
        UpdateDatatypesIndex.msC7 UpdateDatatypesIndex.filesC7).1
      (UpdateDatatypesIndex.update_indexes UpdateDatatypesIndex.riC7
        UpdateDatatypesIndex.msC7 UpdateDatatypesIndex.filesC7).2
      UpdateDatatypesIndex.filesC7).1.statistics.totalResources = 7 ∧
    (UpdateDatatypesIndex.update_indexes UpdateDatatypesIndex.riC7
      UpdateDatatypesIndex.msC7
      UpdateDatatypesIndex.filesC7).1.statistics.totalResources = 6 := by
  exact ⟨rfl, rfl⟩

end FhirViewer
